import Mathlib

/-!
Verification development for the two-player stacker-game engine
(src/lib.rs).  The Rust source is shallowly embedded: pure functions
become Lean functions, the mutable Versus state becomes explicit state
passing, u32 arithmetic is modelled on Nat with explicit saturation at
2^32 - 1, i32/i8 coordinates are modelled on Int (their values stay far
from the overflow boundaries), and the f32 millisecond timers are
modelled as exact rationals (f32 rounding is not modelled).  The RNG
(thread_rng) is external nondeterminism: the sequence of pieces drawn by
a randomizer and the garbage hole columns drawn by add_garbage are
abstracted as oracle streams carried in the state.
-/

set_option maxRecDepth 10000
set_option linter.unusedVariables false

def WIDTH : ℕ := 10
def VISIBLE_HEIGHT : ℕ := 20
def BUFFER_HEIGHT : ℕ := 20
def TOTAL_HEIGHT : ℕ := VISIBLE_HEIGHT + BUFFER_HEIGHT
def LOCK_DELAY_MS : ℚ := 500

inductive Tetromino
  | I
  | J
  | L
  | O
  | S
  | Z
  | T
deriving DecidableEq, Repr

/-- Tetromino::color_id. -/
def Tetromino.color_id : Tetromino → ℕ
  | .I => 1
  | .J => 2
  | .L => 3
  | .O => 4
  | .S => 5
  | .Z => 6
  | .T => 7

inductive Rotation
  | Spawn
  | Right
  | Reverse
  | Left
deriving DecidableEq, Repr

/-- Rotation::rotate_cw. -/
def Rotation.rotate_cw : Rotation → Rotation
  | .Spawn => .Right
  | .Right => .Reverse
  | .Reverse => .Left
  | .Left => .Spawn

/-- Rotation::rotate_ccw. -/
def Rotation.rotate_ccw : Rotation → Rotation
  | .Spawn => .Left
  | .Left => .Reverse
  | .Reverse => .Right
  | .Right => .Spawn

structure Point where
  x : ℤ
  y : ℤ
deriving DecidableEq, Repr

/-- rotate_point: 90-degree rotation transforms about the origin. -/
def rotate_point (p : Point) (rot : Rotation) : Point :=
  match rot with
  | .Spawn => p
  | .Right => ⟨p.y, -p.x⟩
  | .Reverse => ⟨-p.x, -p.y⟩
  | .Left => ⟨-p.y, p.x⟩

/-- shape_blocks: the four cell offsets of (piece, rotation).
I and O have all four orientations listed explicitly; J, L, S, Z, T
derive from the spawn offsets via rotate_point (the source builds the
rotated array in a loop, embedded here as List.map). -/
def shape_blocks (piece : Tetromino) (rotation : Rotation) : List Point :=
  match piece with
  | .I =>
    match rotation with
    | .Spawn => [⟨-1, 0⟩, ⟨0, 0⟩, ⟨1, 0⟩, ⟨2, 0⟩]
    | .Right => [⟨1, 1⟩, ⟨1, 0⟩, ⟨1, -1⟩, ⟨1, -2⟩]
    | .Reverse => [⟨-1, -1⟩, ⟨0, -1⟩, ⟨1, -1⟩, ⟨2, -1⟩]
    | .Left => [⟨0, 1⟩, ⟨0, 0⟩, ⟨0, -1⟩, ⟨0, -2⟩]
  | .O =>
    match rotation with
    | .Spawn => [⟨0, 0⟩, ⟨1, 0⟩, ⟨0, 1⟩, ⟨1, 1⟩]
    | .Right => [⟨1, 0⟩, ⟨1, 1⟩, ⟨2, 0⟩, ⟨2, 1⟩]
    | .Reverse => [⟨1, -1⟩, ⟨2, -1⟩, ⟨1, 0⟩, ⟨2, 0⟩]
    | .Left => [⟨0, -1⟩, ⟨1, -1⟩, ⟨0, 0⟩, ⟨1, 0⟩]
  | _ =>
    let base : List Point :=
      match piece with
      | .T => [⟨-1, 0⟩, ⟨0, 0⟩, ⟨1, 0⟩, ⟨0, 1⟩]
      | .J => [⟨-1, 0⟩, ⟨0, 0⟩, ⟨1, 0⟩, ⟨-1, 1⟩]
      | .L => [⟨-1, 0⟩, ⟨0, 0⟩, ⟨1, 0⟩, ⟨1, 1⟩]
      | .S => [⟨-1, 0⟩, ⟨0, 0⟩, ⟨0, 1⟩, ⟨1, 1⟩]
      | _ => [⟨-1, 1⟩, ⟨0, 1⟩, ⟨0, 0⟩, ⟨1, 0⟩]
    base.map (fun p => rotate_point p rotation)

/-- KickTable::kicks: the ordered SRS kick candidates for (piece, from, to). -/
def kicks (piece : Tetromino) (from_ : Rotation) (to_ : Rotation) : List (ℤ × ℤ) :=
  let idx : ℕ :=
    match from_, to_ with
    | .Spawn, .Right => 0
    | .Right, .Spawn => 1
    | .Right, .Reverse => 2
    | .Reverse, .Right => 3
    | .Reverse, .Left => 4
    | .Left, .Reverse => 5
    | .Left, .Spawn => 6
    | .Spawn, .Left => 7
    | _, _ => 0
  let jlstz : List (List (ℤ × ℤ)) :=
    [[(0, 0), (-1, 0), (-1, 1), (0, -2), (-1, -2)],
     [(0, 0), (1, 0), (1, -1), (0, 2), (1, 2)],
     [(0, 0), (1, 0), (1, -1), (0, 2), (1, 2)],
     [(0, 0), (-1, 0), (-1, 1), (0, -2), (-1, -2)],
     [(0, 0), (1, 0), (1, 1), (0, -2), (1, -2)],
     [(0, 0), (-1, 0), (-1, -1), (0, 2), (-1, 2)],
     [(0, 0), (-1, 0), (-1, -1), (0, 2), (-1, 2)],
     [(0, 0), (1, 0), (1, 1), (0, -2), (1, -2)]]
  let itab : List (List (ℤ × ℤ)) :=
    [[(0, 0), (-2, 0), (1, 0), (-2, -1), (1, 2)],
     [(0, 0), (2, 0), (-1, 0), (2, 1), (-1, -2)],
     [(0, 0), (-1, 0), (2, 0), (-1, 2), (2, -1)],
     [(0, 0), (1, 0), (-2, 0), (1, -2), (-2, 1)],
     [(0, 0), (2, 0), (-1, 0), (2, 1), (-1, -2)],
     [(0, 0), (-2, 0), (1, 0), (-2, -1), (1, 2)],
     [(0, 0), (1, 0), (2, 0), (1, -2), (2, -1)],
     [(0, 0), (-1, 0), (-2, 0), (-1, 2), (-2, 1)]]
  match piece with
  | .I => itab.getD idx []
  | .O => [(0, 0)]
  | _ => jlstz.getD idx []

structure ActivePiece where
  piece : Tetromino
  rotation : Rotation
  x : ℤ
  y : ℤ
  lock_timer : ℚ
  move_resets : ℕ
deriving DecidableEq, Repr

/-- ActivePiece::new: spawn at x = 4, y = VISIBLE_HEIGHT - 1 = 19,
Spawn orientation, lock_timer = 500 ms, move_resets = 15. -/
def ActivePiece.new (piece : Tetromino) : ActivePiece :=
  { piece := piece
    rotation := .Spawn
    x := 4
    y := 19
    lock_timer := LOCK_DELAY_MS
    move_resets := 15 }

def ActivePiece.blocks (ap : ActivePiece) : List Point :=
  shape_blocks ap.piece ap.rotation

/-- Board: 10 x 40 cell grid, stored as the source stores it: a list of
40 rows (index 0 = floor row), each a list of 10 cells. -/
structure Board where
  cells : List (List ℕ)
deriving DecidableEq, Repr

def Board.new : Board :=
  ⟨List.replicate TOTAL_HEIGHT (List.replicate WIDTH 0)⟩

/-- Board::is_occupied: out-of-bounds left/right/below/above counts as
occupied except that the buffer rows (y in [20, 40)) are non-colliding. -/
def Board.is_occupied (b : Board) (x y : ℤ) : Bool :=
  if x < 0 || x ≥ (WIDTH : ℤ) then true
  else if y < 0 then true
  else if y ≥ (TOTAL_HEIGHT : ℤ) then true
  else if y ≥ (VISIBLE_HEIGHT : ℤ) then false
  else ((b.cells.getD y.toNat []).getD x.toNat 0) != 0

/-- Board::collision. -/
def Board.collision (b : Board) (ap : ActivePiece) : Bool :=
  ap.blocks.any fun bl => b.is_occupied (ap.x + bl.x) (ap.y + bl.y)

/-- Board::lock_piece: write color into each in-bounds target cell. -/
def Board.lock_piece (b : Board) (x y : ℤ) (blocks : List Point) (color : ℕ) : Board :=
  ⟨blocks.foldl
    (fun cs bl =>
      let px := x + bl.x
      let py := y + bl.y
      if 0 ≤ px && px < (WIDTH : ℤ) && 0 ≤ py && py < (TOTAL_HEIGHT : ℤ) then
        cs.set py.toNat ((cs.getD py.toNat []).set px.toNat color)
      else cs)
    b.cells⟩

/-- A full row: all 10 cells non-zero.  The length conjunct encodes the
fixed row width of the source array [u8; 10] (trivially true there). -/
def row_full (r : List ℕ) : Bool :=
  r.length = WIDTH && r.all fun c => c != 0

/-- One clearing step at row y: the row is removed, all rows above shift
down by one, and the top buffer row becomes all-zero. -/
def clear_step (cells : List (List ℕ)) (y : ℕ) : List (List ℕ) :=
  cells.eraseIdx y ++ [List.replicate WIDTH 0]

def count_nonzero (cells : List (List ℕ)) : ℕ :=
  (cells.map fun r => r.countP fun c => c != 0).sum

theorem count_nonzero_append (a b : List (List ℕ)) :
    count_nonzero (a ++ b) = count_nonzero a + count_nonzero b := by
  simp [count_nonzero]

theorem count_nonzero_cons (r : List ℕ) (l : List (List ℕ)) :
    count_nonzero (r :: l) = r.countP (fun c => c != 0) + count_nonzero l := by
  simp [count_nonzero]

theorem row_full_countP {r : List ℕ} (h : row_full r = true) :
    r.countP (fun c => c != 0) = WIDTH := by
  simp only [row_full, Bool.and_eq_true, decide_eq_true_eq] at h
  obtain ⟨h1, h2⟩ := h
  have : r.countP (fun c => c != 0) = r.length := by
    rw [List.countP_eq_length]
    intro a ha
    simpa using List.all_eq_true.mp h2 a ha
  omega

theorem row_full_getD_lt {cells : List (List ℕ)} {y : ℕ}
    (h : row_full (cells.getD y []) = true) : y < cells.length := by
  by_contra hge
  rw [List.getD_eq_default] at h
  · simp [row_full, WIDTH] at h
  · omega

theorem count_nonzero_clear_step {cells : List (List ℕ)} {y : ℕ}
    (h : row_full (cells.getD y []) = true) :
    count_nonzero (clear_step cells y) < count_nonzero cells := by
  have hy : y < cells.length := row_full_getD_lt h
  have hd : cells.getD y [] = cells.get ⟨y, hy⟩ := List.getD_eq_getElem cells [] hy
  have hsplit : cells = cells.take y ++ cells.get ⟨y, hy⟩ :: cells.drop (y + 1) := by
    conv_lhs => rw [← List.take_append_drop y cells]
    rw [List.drop_eq_getElem_cons hy]
    simp
  have herase : cells.eraseIdx y = cells.take y ++ cells.drop (y + 1) :=
    List.eraseIdx_eq_take_drop_succ cells y
  have hcnt : count_nonzero cells
      = count_nonzero (cells.take y) + (cells.get ⟨y, hy⟩).countP (fun c => c != 0)
        + count_nonzero (cells.drop (y + 1)) := by
    conv_lhs => rw [hsplit]
    rw [count_nonzero_append, count_nonzero_cons]
    ring
  have hfull : (cells.get ⟨y, hy⟩).countP (fun c => c != 0) = WIDTH := by
    rw [← hd]; exact row_full_countP h
  have hzero : count_nonzero [List.replicate WIDTH 0] = 0 := by
    simp [count_nonzero]
  have hwidth : WIDTH = 10 := rfl
  calc count_nonzero (clear_step cells y)
      = count_nonzero (cells.take y) + count_nonzero (cells.drop (y + 1)) := by
        simp only [clear_step, herase, count_nonzero_append, hzero]
        omega
    _ < count_nonzero cells := by
        rw [hcnt, hfull]
        omega

/-- Board::clear_lines inner while-loop: scan visible rows bottom-up,
remove each full row and recheck the same index, return the new cells
together with the number of rows cleared. -/
def clear_loop (cells : List (List ℕ)) (y : ℕ) (cleared : ℕ) :
    List (List ℕ) × ℕ :=
  if h : y < VISIBLE_HEIGHT then
    if hf : row_full (cells.getD y []) then
      clear_loop (clear_step cells y) y (cleared + 1)
    else
      clear_loop cells (y + 1) cleared
  else (cells, cleared)
termination_by (count_nonzero cells, VISIBLE_HEIGHT - y)
decreasing_by
  · exact Prod.Lex.left _ _ (count_nonzero_clear_step hf)
  · exact Prod.Lex.right _ (by omega)

/-- Board::clear_lines. -/
def Board.clear_lines (b : Board) : Board × ℕ :=
  let r := clear_loop b.cells 0 0
  (⟨r.1⟩, r.2)

def max_height_aux (cells : List (List ℕ)) : ℕ → ℕ
  | 0 => 0
  | n + 1 =>
    if (cells.getD n []).any (fun c => c != 0) then n + 1
    else max_height_aux cells n

/-- Board::max_height: index one above the topmost non-empty row. -/
def Board.max_height (b : Board) : ℕ :=
  max_height_aux b.cells TOTAL_HEIGHT

/-- Board::visible_empty. -/
def Board.visible_empty (b : Board) : Bool :=
  (List.range VISIBLE_HEIGHT).all fun y =>
    !((b.cells.getD y []).any fun c => c != 0)

/-- The scan condition of Board::lowest_drop_height at height y: every
block cell fully in bounds (buffer included) and no cell occupied. -/
def drop_ok (b : Board) (x : ℤ) (blocks : List Point) (y : ℤ) : Bool :=
  (blocks.all fun bl =>
    let px := x + bl.x
    let py := y + bl.y
    0 ≤ px && px < (WIDTH : ℤ) && 0 ≤ py && py < (TOTAL_HEIGHT : ℤ))
  && !(blocks.any fun bl => b.is_occupied (x + bl.x) (y + bl.y))

/-- The descending scan of Board::lowest_drop_height: the argument n + 1
means the next height examined is y = n; the scan runs y = 39, 38, ..., 0. -/
def lowest_drop_aux (b : Board) (x : ℤ) (blocks : List Point) : ℕ → Option ℤ
  | 0 => none
  | n + 1 =>
    if drop_ok b x blocks (n : ℤ) then some (n : ℤ)
    else lowest_drop_aux b x blocks n

/-- Board::lowest_drop_height: scan y downward from TOTAL_HEIGHT - 1 and
return the first height whose block set is fully in bounds and
collision-free. -/
def Board.lowest_drop_height (b : Board) (x : ℤ) (blocks : List Point) : Option ℤ :=
  lowest_drop_aux b x blocks TOTAL_HEIGHT

/-- One garbage row shift: every row moves up by one, the bottom row
becomes a garbage row (8s with a single hole). -/
def garbage_shift (cells : List (List ℕ)) (hole : ℕ) : List (List ℕ) :=
  ((List.replicate WIDTH 8).set hole 0) :: cells.dropLast

/-- Board::add_garbage: n garbage rows with one hole column (the hole is
drawn from thread_rng in the source; here it is an explicit argument
supplied by the caller's oracle stream).  Returns the overflow flag
(max_height exceeding the visible height) which tops the defender out. -/
def Board.add_garbage (b : Board) (lines : ℕ) (hole : ℕ) : Board × Bool :=
  if lines = 0 then (b, false)
  else
    let cells := (fun cs => garbage_shift cs hole)^[lines] b.cells
    ((⟨cells⟩ : Board), decide (VISIBLE_HEIGHT < Board.max_height ⟨cells⟩))

example : Board.new.is_occupied 3 5 = false := by decide
example : Board.new.is_occupied (-1) 5 = true := by decide
example : Board.new.is_occupied 3 25 = false := by decide
example : shape_blocks .S .Spawn = [⟨-1, 0⟩, ⟨0, 0⟩, ⟨0, 1⟩, ⟨1, 1⟩] := by decide
example : shape_blocks .T .Right = [⟨0, 1⟩, ⟨0, 0⟩, ⟨0, -1⟩, ⟨1, 0⟩] := by decide
example : kicks .J .Spawn .Right = [(0, 0), (-1, 0), (-1, 1), (0, -2), (-1, -2)] := by decide
example : Board.new.lowest_drop_height 4 (shape_blocks .T .Spawn) = some 38 := by decide

/-- The randomizer draws from thread_rng in the source; the sequence of
drawn pieces is abstracted as an oracle stream consumed left to right.
(Which piece gets drawn never matters for the claims below.) -/
structure RandState where
  stream : ℕ → Tetromino
  pos : ℕ

def RandState.next (r : RandState) : Tetromino × RandState :=
  (r.stream r.pos, { r with pos := r.pos + 1 })

structure Player where
  board : Board
  active : ActivePiece
  queue : List Tetromino
  hold : Option Tetromino
  held_on_turn : Bool
  last_action_was_t_spin : Bool
  rand : RandState
  /-- Oracle stream for the hole column drawn inside Board::add_garbage. -/
  hole_stream : ℕ → Fin WIDTH
  hole_pos : ℕ
  topped_out : Bool
  pending_garbage : ℕ
  combo : ℕ
  back_to_back : Bool
  last_refill_added : Option Tetromino

/-- Player::refill_queue inner while-loop: draw pieces until the queue
has 6 entries, recording each draw in last_refill_added. -/
def refill_loop (p : Player) : Player :=
  if p.queue.length < 6 then
    let d := p.rand.next
    refill_loop { p with queue := p.queue ++ [d.1], rand := d.2,
                         last_refill_added := some d.1 }
  else p
termination_by 6 - p.queue.length
decreasing_by simp only [List.length_append, List.length_cons, List.length_nil]; omega

/-- Player::refill_queue (sets last_refill_added to None first). -/
def Player.refill_queue (p : Player) : Player :=
  refill_loop { p with last_refill_added := none }

/-- Player::spawn_next.  The source pops queue\[0\] with Vec::remove,
which requires a non-empty queue (maintained ≥ 5 by construction); the
embedding totalises the pop with an arbitrary default piece. -/
def Player.spawn_next (p : Player) : Player :=
  let p1 := { p with held_on_turn := false, last_action_was_t_spin := false }
  let next_piece := p1.queue.headD Tetromino.I
  let p2 := Player.refill_queue { p1 with queue := p1.queue.tail }
  let p3 := { p2 with active := ActivePiece.new next_piece }
  if p3.board.collision p3.active then { p3 with topped_out := true } else p3

/-- Player::lock_piece: write the active piece, clear lines, compute the
T-spin flag, spawn the next piece.  Returns (player, cleared, was_t_spin). -/
def Player.lock_piece (p : Player) : Player × ℕ × Bool :=
  let color := p.active.piece.color_id
  let blocks := p.active.blocks
  let b1 := p.board.lock_piece p.active.x p.active.y blocks color
  let r := b1.clear_lines
  let was_t_spin :=
    p.last_action_was_t_spin && (p.active.piece == Tetromino.T) && decide (0 < r.2)
  let p2 := Player.spawn_next { p with board := r.1 }
  (p2, r.2, was_t_spin)

/-- Player::hard_drop inner loop: step down until the next fall would
collide (with the landing < 0 safety break of the source). -/
def hard_drop_loop (b : Board) (ap : ActivePiece) (landing : ℤ) : ℤ :=
  if b.collision { ap with y := landing - 1 } then landing
  else if landing - 1 < 0 then landing - 1
  else hard_drop_loop b ap (landing - 1)
termination_by (landing + 1).toNat
decreasing_by omega

/-- Player::hard_drop. -/
def Player.hard_drop (p : Player) : Player × ℕ × Bool :=
  let landing := hard_drop_loop p.board p.active p.active.y
  Player.lock_piece { p with active := { p.active with y := landing } }

structure PlayerStats where
  time_ms : ℚ
  pieces : ℕ
  keys : ℕ
  attack : ℕ
  finesse : ℕ
  lines_sent : ℕ
deriving DecidableEq, Repr

def PlayerStats.init : PlayerStats := ⟨0, 0, 0, 0, 0, 0⟩

def U32_MAX : ℕ := 2 ^ 32 - 1

/-- u32::saturating_add on the Nat model. -/
def sat_add (a b : ℕ) : ℕ := min (a + b) U32_MAX

/-- InputState (the source's InputFrame is a field-for-field twin of
InputState, converted back and forth with Into; one structure serves as
both here). -/
structure InputState where
  left : Bool
  right : Bool
  soft_drop : Bool
  hard_drop : Bool
  rotate_ccw : Bool
  rotate_cw : Bool
  rotate_180 : Bool
  hold : Bool
deriving DecidableEq, Repr

def InputState.idle : InputState :=
  ⟨false, false, false, false, false, false, false, false⟩

/-- count_input_edges: number of false-to-true transitions. -/
def count_input_edges (prev curr : InputState) : ℕ :=
  let e := fun (p c : Bool) => if !p && c then 1 else 0
  e prev.left curr.left + e prev.right curr.right
    + e prev.soft_drop curr.soft_drop + e prev.hard_drop curr.hard_drop
    + e prev.rotate_ccw curr.rotate_ccw + e prev.rotate_cw curr.rotate_cw
    + e prev.rotate_180 curr.rotate_180 + e prev.hold curr.hold

structure Controller where
  inputs : InputState
  last_hard_drop : Bool
  last_dir : ℤ
  das_timer : ℚ
  arr_timer : ℚ
  shifted_initial : Bool
  last_rotate_cw : Bool
  last_rotate_ccw : Bool
  last_rotate_180 : Bool
deriving DecidableEq, Repr

def Controller.new : Controller :=
  ⟨InputState.idle, false, 0, 0, 0, false, false, false, false⟩

def Controller.update_inputs (c : Controller) (incoming : InputState) : Controller :=
  { c with inputs := incoming }

def Controller.take_hard_drop (c : Controller) : Bool × Controller :=
  (c.inputs.hard_drop && !c.last_hard_drop, { c with last_hard_drop := c.inputs.hard_drop })

def Controller.take_rotate_cw (c : Controller) : Bool × Controller :=
  (c.inputs.rotate_cw && !c.last_rotate_cw, { c with last_rotate_cw := c.inputs.rotate_cw })

def Controller.take_rotate_ccw (c : Controller) : Bool × Controller :=
  (c.inputs.rotate_ccw && !c.last_rotate_ccw, { c with last_rotate_ccw := c.inputs.rotate_ccw })

def Controller.take_rotate_180 (c : Controller) : Bool × Controller :=
  (c.inputs.rotate_180 && !c.last_rotate_180, { c with last_rotate_180 := c.inputs.rotate_180 })

inductive SoftDropSpeed
  | Slow
  | Medium
  | Fast
  | Ultra
  | Instant
deriving DecidableEq, Repr

def SoftDropSpeed.factor : SoftDropSpeed → ℚ
  | .Slow => 6 / 5
  | .Medium => 2
  | .Fast => 5
  | .Ultra => 20
  | .Instant => 999

inductive GridStyle
  | NoGrid
  | Standard
  | Partial
  | Vertical
  | Full
deriving DecidableEq, Repr

structure GameSettings where
  das : ℕ
  arr : ℕ
  soft_drop : SoftDropSpeed
  ghost_enabled : Bool
  grid : GridStyle
deriving DecidableEq, Repr

def GameSettings.init : GameSettings :=
  ⟨133, 10, .Medium, true, .Standard⟩

/-- AttackTable; lines0 .. lines4 are the source's _0_lines .. _4_lines. -/
structure AttackTable where
  lines0 : ℕ
  lines1 : ℕ
  lines2 : ℕ
  lines3 : ℕ
  lines4 : ℕ
  t_spin_double : ℕ
  t_spin_triple : ℕ
  t_spin_single : ℕ
  t_spin_mini_single : ℕ
  perfect_clear : ℕ
  back_to_back_bonus : ℕ
deriving DecidableEq, Repr

def default_attack_table : AttackTable :=
  ⟨0, 0, 1, 2, 4, 4, 6, 2, 0, 10, 1⟩

structure ComboTable where
  c0 : ℕ
  c1 : ℕ
  c2 : ℕ
  c3 : ℕ
  c4 : ℕ
  c5 : ℕ
  c6 : ℕ
  c7 : ℕ
  c8 : ℕ
  c9 : ℕ
  c10 : ℕ
  c11 : ℕ
  c12_plus : ℕ
deriving DecidableEq, Repr

def default_combo_table : ComboTable :=
  ⟨0, 0, 1, 1, 1, 2, 2, 3, 3, 4, 4, 4, 5⟩

/-- BotDriver timing state.  The fallback bot heuristic itself
(find_safe_column) is declared out of scope by the spec (a stub with no
quality guarantees) and its RNG-shuffled column choice is abstracted: the
input frame it would produce is drawn from the bot_frames oracle stream
on the Versus state. -/
structure BotDriver where
  pps : ℚ
  think_timer : ℚ

structure Versus where
  player0 : Player
  player1 : Player
  ctrl0 : Controller
  ctrl1 : Controller
  settings : GameSettings
  bot_driver : BotDriver
  bot_frames : ℕ → InputState
  bot_pos : ℕ
  use_internal_bot : Bool
  fall0 : ℚ
  fall1 : ℚ
  gravity_ms : ℚ
  stats0 : PlayerStats
  stats1 : PlayerStats
  last_in0 : InputState
  last_in1 : InputState
  attack_table : AttackTable
  combo_table : ComboTable

def Versus.getP (v : Versus) (i : ℕ) : Player :=
  if i = 0 then v.player0 else v.player1

def Versus.setP (v : Versus) (i : ℕ) (p : Player) : Versus :=
  if i = 0 then { v with player0 := p } else { v with player1 := p }

def Versus.getCtrl (v : Versus) (i : ℕ) : Controller :=
  if i = 0 then v.ctrl0 else v.ctrl1

def Versus.setCtrl (v : Versus) (i : ℕ) (c : Controller) : Versus :=
  if i = 0 then { v with ctrl0 := c } else { v with ctrl1 := c }

def Versus.getStats (v : Versus) (i : ℕ) : PlayerStats :=
  if i = 0 then v.stats0 else v.stats1

def Versus.setStats (v : Versus) (i : ℕ) (s : PlayerStats) : Versus :=
  if i = 0 then { v with stats0 := s } else { v with stats1 := s }

def Versus.getFall (v : Versus) (i : ℕ) : ℚ :=
  if i = 0 then v.fall0 else v.fall1

def Versus.setFall (v : Versus) (i : ℕ) (q : ℚ) : Versus :=
  if i = 0 then { v with fall0 := q } else { v with fall1 := q }

/-- The attack computed in Versus::on_piece_locked before garbage
cancellation: base (T-spin or line table) + combo bonus + back-to-back
bonus + perfect-clear bonus, via u32 saturating adds.  combo is the
already-updated combo counter, b2b the previous back_to_back flag. -/
def attack_before_cancel_calc (at_ : AttackTable) (ct : ComboTable) (combo : ℕ)
    (b2b : Bool) (pc : Bool) (cleared : ℕ) (is_t_spin : Bool) : ℕ :=
  let base :=
    if is_t_spin && decide (0 < cleared) then
      if cleared = 1 then at_.t_spin_single
      else if cleared = 2 then at_.t_spin_double
      else at_.t_spin_triple
    else
      if cleared = 0 then at_.lines0
      else if cleared = 1 then at_.lines1
      else if cleared = 2 then at_.lines2
      else if cleared = 3 then at_.lines3
      else at_.lines4
  let combo_idx := combo - 1
  let combo_bonus :=
    if combo_idx = 0 then ct.c0
    else if combo_idx = 1 then ct.c1
    else if combo_idx = 2 then ct.c2
    else if combo_idx = 3 then ct.c3
    else if combo_idx = 4 then ct.c4
    else if combo_idx = 5 then ct.c5
    else if combo_idx = 6 then ct.c6
    else if combo_idx = 7 then ct.c7
    else if combo_idx = 8 then ct.c8
    else if combo_idx = 9 then ct.c9
    else if combo_idx = 10 then ct.c10
    else if combo_idx = 11 then ct.c11
    else ct.c12_plus
  let a1 := sat_add base combo_bonus
  let a2 := if b2b && decide (4 ≤ cleared) then sat_add a1 at_.back_to_back_bonus else a1
  if pc then sat_add a2 at_.perfect_clear else a2

/-- Versus::on_piece_locked: stats, combo, attack computation, garbage
cancellation against the locking player's own pending garbage, spill of
blocked garbage when the combo broke, delivery of the surviving attack
to the opponent. -/
def Versus.on_piece_locked (v : Versus) (idx : ℕ) (cleared : ℕ) (is_t_spin : Bool) : Versus :=
  let player := v.getP idx
  let stats := v.getStats idx
  let stats := { stats with pieces := sat_add stats.pieces 1 }
  let combo2 := if 0 < cleared then sat_add player.combo 1 else 0
  let apply_garbage := if 0 < cleared then false else true
  let perfect_clear := player.board.visible_empty
  let attack := attack_before_cancel_calc v.attack_table v.combo_table combo2
      player.back_to_back perfect_clear cleared is_t_spin
  let b2b2 := decide (4 ≤ cleared)
  let pend2 :=
    if 0 < attack then
      if attack ≤ player.pending_garbage then player.pending_garbage - attack
      else 0
    else player.pending_garbage
  let attack_out :=
    if 0 < attack then
      if attack ≤ player.pending_garbage then 0
      else attack - player.pending_garbage
    else attack
  let stats := { stats with attack := sat_add stats.attack attack }
  let player2 := { player with
    combo := combo2, back_to_back := b2b2, pending_garbage := pend2 }
  let v1 := (v.setP idx player2).setStats idx stats
  let v2 :=
    if apply_garbage then
      let p := v1.getP idx
      if 0 < p.pending_garbage then
        let hole := p.hole_stream p.hole_pos
        let gb := p.board.add_garbage p.pending_garbage hole
        v1.setP idx { p with
          board := gb.1, pending_garbage := 0, hole_pos := p.hole_pos + 1,
          topped_out := p.topped_out || gb.2 }
      else v1
    else v1
  if 0 < attack_out then
    let opp := if idx = 0 then 1 else 0
    let po := v2.getP opp
    let v3 := v2.setP opp
        { po with pending_garbage := sat_add po.pending_garbage attack_out }
    let so := v3.getStats idx
    v3.setStats idx { so with lines_sent := sat_add so.lines_sent attack_out }
  else v2

/-- Versus::try_fall. -/
def Versus.try_fall (v : Versus) (idx : ℕ) : Bool × Versus :=
  let p := v.getP idx
  let test := { p.active with y := p.active.y - 1 }
  if p.board.collision test then (false, v)
  else (true, v.setP idx { p with active := test })

/-- Versus::try_shift. -/
def Versus.try_shift (v : Versus) (idx : ℕ) (dir : ℤ) : Bool × Versus :=
  let p := v.getP idx
  let test := { p.active with x := p.active.x + dir }
  if p.board.collision test then (false, v)
  else (true, v.setP idx { p with active := test })

/-- The kick-candidate loop inside Versus::try_rotate: the first
non-colliding candidate wins, becomes the new active placement, and sets
last_action_was_t_spin to whether the piece is T. -/
def kick_loop (v : Versus) (idx : ℕ) (to_ : Rotation) :
    List (ℤ × ℤ) → Bool × Versus
  | [] => (false, v)
  | k :: rest =>
    let p := v.getP idx
    let test := { p.active with rotation := to_, x := p.active.x + k.1, y := p.active.y + k.2 }
    if !(p.board.collision test) then
      (true, v.setP idx
        { p with
          active := test,
          last_action_was_t_spin := p.active.piece == Tetromino.T })
    else kick_loop v idx to_ rest

/-- Versus::try_rotate with double = false: one 90-degree rotation with
its kick list. -/
def Versus.try_rotate_single (v : Versus) (idx : ℕ) (cw : Bool) : Bool × Versus :=
  let p := v.getP idx
  let from_ := p.active.rotation
  let to_ := if cw then from_.rotate_cw else from_.rotate_ccw
  kick_loop v idx to_ (kicks p.active.piece from_ to_)

/-- Versus::try_rotate: double = true applies two sequential 90-degree
rotations, each with its own kick resolution, exactly as the source
recurses into itself with double = false. -/
def Versus.try_rotate (v : Versus) (idx : ℕ) (cw double : Bool) : Bool × Versus :=
  if double then
    let r1 := v.try_rotate_single idx cw
    let r2 := r1.2.try_rotate_single idx cw
    (r1.1 || r2.1, r2.2)
  else v.try_rotate_single idx cw

/-- Versus::try_hold. -/
def Versus.try_hold (v : Versus) (idx : ℕ) : Versus :=
  let p := v.getP idx
  if p.held_on_turn then v
  else
    let current := p.active.piece
    match p.hold with
    | some held =>
      v.setP idx { p with
        active := ActivePiece.new held, hold := some current,
        held_on_turn := true }
    | none =>
      let p2 := Player.spawn_next { p with hold := some current }
      v.setP idx { p2 with held_on_turn := true }

theorem getP_setP (v : Versus) (i : ℕ) (p : Player) : (v.setP i p).getP i = p := by
  unfold Versus.getP Versus.setP
  split <;> simp

theorem shape_blocks_has_nonpos (p : Tetromino) (r : Rotation) :
    (shape_blocks p r).any (fun bl => decide (bl.y ≤ 0)) = true := by
  cases p <;> cases r <;> decide

theorem is_occupied_of_neg (b : Board) (x : ℤ) {y : ℤ} (hy : y < 0) :
    b.is_occupied x y = true := by
  unfold Board.is_occupied
  split_ifs <;> rfl

/-- A piece that can still fall sits at y ≥ 1: every shape has a block
with non-positive vertical offset, and a block below the floor counts
as occupied. -/
theorem no_collision_below_y {b : Board} {ap : ActivePiece}
    (h : b.collision { ap with y := ap.y - 1 } = false) : 1 ≤ ap.y := by
  simp only [Board.collision, ActivePiece.blocks, List.any_eq_false] at h
  obtain ⟨bl, hmem, hble⟩ := List.any_eq_true.mp
    (shape_blocks_has_nonpos ap.piece ap.rotation)
  have hble2 : bl.y ≤ 0 := of_decide_eq_true hble
  have hocc := h bl hmem
  by_contra hlt
  push_neg at hlt
  have : ap.y - 1 + bl.y < 0 := by omega
  rw [is_occupied_of_neg b _ this] at hocc
  exact absurd hocc (by simp)

theorem try_fall_success_spec {v : Versus} {idx : ℕ}
    (h : (v.try_fall idx).1 = true) :
    ((v.try_fall idx).2.getP idx).active
      = { (v.getP idx).active with y := (v.getP idx).active.y - 1 }
    ∧ 1 ≤ (v.getP idx).active.y := by
  by_cases hc : (v.getP idx).board.collision
      { (v.getP idx).active with y := (v.getP idx).active.y - 1 } = true
  · exfalso
    have : (v.try_fall idx).1 = false := by
      simp [Versus.try_fall, hc]
    simp_all
  · have hc2 : (v.getP idx).board.collision
        { (v.getP idx).active with y := (v.getP idx).active.y - 1 } = false :=
      Bool.not_eq_true _ ▸ hc
    constructor
    · have hst : (v.try_fall idx).2
          = v.setP idx { v.getP idx with active :=
              { (v.getP idx).active with y := (v.getP idx).active.y - 1 } } := by
        simp [Versus.try_fall, hc2]
      rw [hst, getP_setP]
    · exact no_collision_below_y hc2

/-- The gravity / soft-drop while-loop of Versus::advance_player:
consume one gravity period per successful fall, stop when a fall fails
or the accumulator runs dry. -/
def gravity_loop (v : Versus) (idx : ℕ) (accum : ℚ) : ℚ × Versus :=
  if v.gravity_ms ≤ accum then
    let r := v.try_fall idx
    if hr : r.1 then gravity_loop r.2 idx (accum - v.gravity_ms)
    else (accum, v)
  else (accum, v)
termination_by ((v.getP idx).active.y).toNat
decreasing_by
  have hspec := @try_fall_success_spec v idx hr
  rw [hspec.1]
  have h2 := hspec.2
  simp only [Int.toNat_lt]
  omega

/-- The ARR while-loop of Versus::advance_player: one shift attempt per
elapsed ARR step, stopping at the first failed shift. -/
def arr_loop (v : Versus) (idx : ℕ) (dir : ℤ) (arr_setting : ℕ)
    (arr_timer : ℚ) (moved : Bool) : ℚ × Bool × Versus :=
  let step : ℚ := (max arr_setting 1 : ℕ)
  if step ≤ arr_timer then
    let r := v.try_shift idx dir
    if r.1 then arr_loop r.2 idx dir arr_setting (arr_timer - step) true
    else (arr_timer, moved, v)
  else (arr_timer, moved, v)
termination_by (⌊arr_timer⌋).toNat
decreasing_by
  next hcond _ =>
  have hstep : (1 : ℚ) ≤ (max arr_setting 1 : ℕ) := by
    have : 1 ≤ max arr_setting 1 := le_max_right _ _
    exact_mod_cast this
  have hle : arr_timer - (max arr_setting 1 : ℕ) ≤ arr_timer - 1 := by linarith
  have h1 : ⌊arr_timer - ((max arr_setting 1 : ℕ) : ℚ)⌋ ≤ ⌊arr_timer⌋ - 1 := by
    calc ⌊arr_timer - ((max arr_setting 1 : ℕ) : ℚ)⌋ ≤ ⌊arr_timer - 1⌋ :=
          Int.floor_le_floor hle
      _ = ⌊arr_timer⌋ - 1 := by
          exact_mod_cast Int.floor_sub_int arr_timer 1
  have h2 : (1 : ℤ) ≤ ⌊arr_timer⌋ := by
    rw [Int.le_floor]
    calc ((1 : ℤ) : ℚ) = 1 := by norm_num
      _ ≤ (max arr_setting 1 : ℕ) := hstep
      _ ≤ arr_timer := hcond
  omega

/-- The result of the DAS/ARR shift section of Versus::advance_player:
the new das/arr timers, the shifted_initial flag, whether any shift
succeeded this tick, and the updated state. -/
structure ShiftOutcome where
  das : ℚ
  arr : ℚ
  shifted : Bool
  moved : Bool
  state : Versus

/-- The DAS/ARR shift section of Versus::advance_player (source lines
computing the initial shift, charging DAS, then running the ARR loop). -/
def shift_section (v : Versus) (idx : ℕ) (dir : ℤ) (dt : ℚ)
    (das_timer arr_timer : ℚ) (shifted_initial : Bool) : ShiftOutcome :=
  if dir ≠ 0 then
    let s1 :=
      if !shifted_initial then
        let r := v.try_shift idx dir
        (r.1, true, r.2)
      else (false, shifted_initial, v)
    let moved0 := s1.1
    let shifted2 := s1.2.1
    let v2 := s1.2.2
    let das2 := das_timer + dt
    if (v2.settings.das : ℚ) ≤ das2 then
      let arr2 := arr_timer + dt
      let al := arr_loop v2 idx dir v2.settings.arr arr2 moved0
      ⟨das2, al.1, shifted2, al.2.1, al.2.2⟩
    else ⟨das2, arr_timer, shifted2, moved0, v2⟩
  else ⟨0, 0, false, false, v⟩

/-- The lock-delay update at the end of Versus::advance_player: ground
detection, the move-reset refresh on a successful action, the lock-timer
countdown and lock, and the airborne reset. -/
def Versus.lock_delay_phase (v : Versus) (idx : ℕ) (dt : ℚ)
    (moved rotated : Bool) : Versus :=
  let p0 := v.getP idx
  let on_ground := p0.board.collision { p0.active with y := p0.active.y - 1 }
  let v1 :=
    if rotated || moved then
      if on_ground && decide (0 < p0.active.move_resets) then
        v.setP idx { p0 with active := { p0.active with
          lock_timer := LOCK_DELAY_MS, move_resets := p0.active.move_resets - 1 } }
      else v
    else v
  if on_ground then
    let p := v1.getP idx
    let p2 := { p with active := { p.active with
      lock_timer := p.active.lock_timer - dt } }
    if p2.active.lock_timer ≤ 0 then
      let lr := p2.lock_piece
      let v2 := v1.setP idx lr.1
      let v3 := v2.on_piece_locked idx lr.2.1 lr.2.2
      v3.setFall idx 0
    else v1.setP idx p2
  else
    let p := v1.getP idx
    v1.setP idx { p with active := { p.active with
      lock_timer := LOCK_DELAY_MS, move_resets := 15 } }

/-- The rotate-edge and DAS/ARR-shift section of Versus::advance_player
(everything between the hard-drop dispatch and the hold attempt).
Returns (rotated, moved, state). -/
def pre_hold_phase (v : Versus) (idx : ℕ) (dt : ℚ) (inputs : InputState) :
    Bool × Bool × Versus :=
  let tcw := (v.getCtrl idx).take_rotate_cw
  let v := v.setCtrl idx tcw.2
  let rr1 := if tcw.1 then v.try_rotate idx true false else (false, v)
  let rotated1 := rr1.1
  let v := rr1.2
  let tccw := (v.getCtrl idx).take_rotate_ccw
  let v := v.setCtrl idx tccw.2
  let rr2 := if tccw.1 then v.try_rotate idx false false else (false, v)
  let rotated2 := rotated1 || rr2.1
  let v := rr2.2
  let t180 := (v.getCtrl idx).take_rotate_180
  let v := v.setCtrl idx t180.2
  let rr3 := if t180.1 then v.try_rotate idx true true else (false, v)
  let rotated := rotated2 || rr3.1
  let v := rr3.2
  let dir : ℤ :=
    match inputs.left, inputs.right with
    | true, false => -1
    | false, true => 1
    | _, _ => 0
  let v :=
    if dir ≠ (v.getCtrl idx).last_dir then
      v.setCtrl idx { v.getCtrl idx with
        das_timer := 0, arr_timer := 0, shifted_initial := false,
        last_dir := dir }
    else v
  let so := shift_section v idx dir dt (v.getCtrl idx).das_timer
    (v.getCtrl idx).arr_timer (v.getCtrl idx).shifted_initial
  let v := so.state
  let v := v.setCtrl idx { v.getCtrl idx with
    das_timer := so.das, arr_timer := so.arr, shifted_initial := so.shifted }
  (rotated, so.moved, v)

/-- Versus::advance_player (the _is_bot parameter is unused in the
source as well). -/
def Versus.advance_player (v : Versus) (idx : ℕ) (dt : ℚ)
    (inputs : InputState) (_is_bot : Bool) : Versus :=
  if (v.getP idx).topped_out then v
  else
    let thd := (v.getCtrl idx).take_hard_drop
    let v := v.setCtrl idx thd.2
    if thd.1 then
      let hdres := (v.getP idx).hard_drop
      let v := v.setP idx hdres.1
      let v := v.on_piece_locked idx hdres.2.1 hdres.2.2
      v.setFall idx 0
    else
      let ph := pre_hold_phase v idx dt inputs
      let rotated := ph.1
      let v := ph.2.2
      let v := if inputs.hold then v.try_hold idx else v
      let drop_speed := if inputs.soft_drop then v.settings.soft_drop.factor else 1
      let gl := gravity_loop v idx (v.getFall idx + dt * drop_speed)
      let v := gl.2.setFall idx gl.1
      v.lock_delay_phase idx dt ph.2.1 rotated

/-- BotDriver::update.  The heuristic plan (find_safe_column) is out of
scope per the spec; the frame it would produce is drawn from the
bot_frames oracle. -/
def bot_update (v : Versus) (dt : ℚ) : InputState × Versus :=
  let bd := v.bot_driver
  let t2 := bd.think_timer + dt
  let piece_time : ℚ := 1000 / max bd.pps (1 / 10)
  if piece_time ≤ t2 then
    let frame := v.bot_frames v.bot_pos
    (frame, { v with
      bot_driver := { bd with think_timer := 0 }, bot_pos := v.bot_pos + 1 })
  else (InputState.idle, { v with bot_driver := { bd with think_timer := t2 } })

/-- Versus::tick. -/
def Versus.tick (v : Versus) (dt : ℚ) (input0 : InputState) : Versus :=
  if v.player0.topped_out || v.player1.topped_out then v
  else
    let v := { v with
      stats0 := { v.stats0 with time_ms := v.stats0.time_ms + dt },
      stats1 := { v.stats1 with time_ms := v.stats1.time_ms + dt } }
    let v := v.setCtrl 0 ((v.getCtrl 0).update_inputs input0)
    let v := v.setStats 0 { v.getStats 0 with
      keys := (v.getStats 0).keys + count_input_edges v.last_in0 input0 }
    let v := { v with last_in0 := input0 }
    let v :=
      if v.use_internal_bot then
        let bu := bot_update v dt
        let bframe := bu.1
        let v := bu.2
        let v := v.setCtrl 1 ((v.getCtrl 1).update_inputs bframe)
        let v := v.setStats 1 { v.getStats 1 with
          keys := (v.getStats 1).keys + count_input_edges v.last_in1 bframe }
        { v with last_in1 := bframe }
      else
        v.setCtrl 1 ((v.getCtrl 1).update_inputs InputState.idle)
    let v := v.advance_player 0 dt (v.getCtrl 0).inputs false
    if v.use_internal_bot then v.advance_player 1 dt (v.getCtrl 1).inputs true
    else v

inductive TbpOrient
  | North
  | East
  | South
  | West
deriving DecidableEq, Repr

/-- from_tbp_orientation. -/
def from_tbp_orientation : TbpOrient → Rotation
  | .North => .Spawn
  | .East => .Right
  | .South => .Reverse
  | .West => .Left

/-- A TBP move location: piece kind and orientation may be unknown
(MaybeUnknown in the source). -/
structure TbpMove where
  piece : Option Tetromino
  orientation : Option TbpOrient
  x : ℤ
  y : ℤ
deriving DecidableEq, Repr

/-- The error strings returned by Versus::apply_tbp_move, as a closed
enumeration: invalid player index / player topped out / unknown piece in
move / unknown orientation in move / move piece not available /
placement collides with board. -/
inductive TbpError
  | invalidIndex
  | toppedOut
  | unknownPiece
  | unknownOrientation
  | moveNotAvailable
  | placementCollision
deriving DecidableEq, Repr

structure AppliedMoveResult where
  lines_cleared : ℕ
  topped_out : Bool
  active_piece : Option Tetromino
  new_queue_piece : Option Tetromino
  combo : ℕ
  back_to_back : Bool
deriving DecidableEq, Repr

instance {ε α : Type} [DecidableEq ε] [DecidableEq α] : DecidableEq (Except ε α)
  | .ok a, .ok b =>
    if h : a = b then .isTrue (by rw [h])
    else .isFalse (by intro hc; injection hc; contradiction)
  | .ok _, .error _ => .isFalse (by intro hc; cases hc)
  | .error _, .ok _ => .isFalse (by intro hc; cases hc)
  | .error e, .error f =>
    if h : e = f then .isTrue (by rw [h])
    else .isFalse (by intro hc; injection hc; contradiction)

/-- The collision fallback of Versus::apply_tbp_move: if the requested
placement collides, drop to the height found by lowest_drop_height;
false in the first component means the placement-collides error, and the
second component is the active piece the player is left with. -/
def resolve_collision (b : Board) (ap : ActivePiece) : Bool × ActivePiece :=
  if b.collision ap then
    match b.lowest_drop_height ap.x ap.blocks with
    | some drop_y =>
      let ap2 := { ap with y := drop_y }
      if b.collision ap2 then (false, ap2) else (true, ap2)
    | none => (false, ap)
  else (true, ap)

/-- Versus::apply_tbp_move.  Mirrors the source control flow: index and
topped-out checks, piece parsing, the hold/queue swap block, orientation
parsing, coordinate assignment with the vertical-I correction, collision
fallback, then lock and attack resolution.  Errors return the state as
the mutable self was left (mutations before the failing check persist). -/
def Versus.apply_tbp_move (v : Versus) (idx : ℕ) (mv : TbpMove) :
    Except TbpError AppliedMoveResult × Versus :=
  if 2 ≤ idx then (.error .invalidIndex, v)
  else if (v.getP idx).topped_out then (.error .toppedOut, v)
  else
    match mv.piece with
    | none => (.error .unknownPiece, v)
    | some desired =>
      let p := v.getP idx
      let swap : Except TbpError Player :=
        if desired ≠ p.active.piece then
          let queue_front := p.queue.head?
          match p.hold with
          | some h =>
            if h = desired then
              .ok { p with
                active := ActivePiece.new desired,
                hold := some p.active.piece, held_on_turn := true }
            else if queue_front = some desired ∧ p.held_on_turn = false then
              .ok (Player.refill_queue { p with
                hold := some p.active.piece, active := ActivePiece.new desired,
                queue := p.queue.tail, held_on_turn := true })
            else .error .moveNotAvailable
          | none =>
            if queue_front = some desired ∧ p.held_on_turn = false then
              .ok (Player.refill_queue { p with
                hold := some p.active.piece, active := ActivePiece.new desired,
                queue := p.queue.tail, held_on_turn := true })
            else .error .moveNotAvailable
        else .ok p
      match swap with
      | .error e => (.error e, v)
      | .ok p1 =>
        match mv.orientation with
        | none => (.error .unknownOrientation, v.setP idx p1)
        | some o =>
          let rot := from_tbp_orientation o
          let ap0 := { p1.active with rotation := rot, x := mv.x, y := mv.y }
          let ap1 :=
            if ap0.piece = Tetromino.I ∧ (rot = Rotation.Right ∨ rot = Rotation.Reverse)
            then { ap0 with x := ap0.x - 1 }
            else ap0
          let rc := resolve_collision p1.board ap1
          if rc.1 then
            let p2 := { p1 with active := rc.2 }
            let lr := p2.lock_piece
            let v1 := v.setP idx lr.1
            let v2 := v1.on_piece_locked idx lr.2.1 lr.2.2
            let v3 := v2.setFall idx 0
            let pf := v3.getP idx
            let result : AppliedMoveResult :=
              { lines_cleared := lr.2.1
                topped_out := pf.topped_out
                active_piece := if pf.topped_out then none else some pf.active.piece
                new_queue_piece :=
                  pf.last_refill_added.orElse (fun _ => pf.queue.getLast?)
                combo := pf.combo
                back_to_back := pf.back_to_back }
            (.ok result, v3)
          else (.error .placementCollision, v.setP idx { p1 with active := rc.2 })

/-! Concrete fixture states used by witnesses and counterexamples. -/

def hole0 : ℕ → Fin WIDTH := fun _ => ⟨0, by norm_num [WIDTH]⟩

def ex_player : Player :=
  { board := Board.new
    active := ActivePiece.new .T
    queue := [.I, .J, .L, .O, .S]
    hold := none
    held_on_turn := false
    last_action_was_t_spin := false
    rand := ⟨fun _ => Tetromino.Z, 0⟩
    hole_stream := hole0
    hole_pos := 0
    topped_out := false
    pending_garbage := 0
    combo := 0
    back_to_back := false
    last_refill_added := none }

def ex_versus : Versus :=
  { player0 := ex_player
    player1 := ex_player
    ctrl0 := Controller.new
    ctrl1 := Controller.new
    settings := GameSettings.init
    bot_driver := ⟨9 / 5, 0⟩
    bot_frames := fun _ => InputState.idle
    bot_pos := 0
    use_internal_bot := false
    fall0 := 0
    fall1 := 0
    gravity_ms := 1000
    stats0 := PlayerStats.init
    stats1 := PlayerStats.init
    last_in0 := InputState.idle
    last_in1 := InputState.idle
    attack_table := default_attack_table
    combo_table := default_combo_table }

/-- A visible row holed only at the given columns. -/
def row_except (cols : List ℕ) : List ℕ :=
  (List.range WIDTH).map fun i => if i ∈ cols then 0 else 1

/-- Board for the 180-rotation witness: a T at (4, 1) can rotate
Spawn -> Right in place, but every Right -> Reverse kick is blocked. -/
def c6_board : Board :=
  ⟨[row_except [4], row_except [4, 5], row_except [4]]
    ++ List.replicate 17 (List.replicate WIDTH 1)
    ++ List.replicate 20 (List.replicate WIDTH 0)⟩

def c6_versus : Versus :=
  { ex_versus with player0 := { ex_player with
      board := c6_board
      active := { ActivePiece.new .T with x := 4, y := 1 } } }

/-! Getter/setter interaction lemmas for the Versus state. -/

@[simp] theorem getStats_setP (v : Versus) (i j : ℕ) (p : Player) :
    (v.setP i p).getStats j = v.getStats j := by
  unfold Versus.getStats Versus.setP
  split <;> split <;> rfl

@[simp] theorem getCtrl_setP (v : Versus) (i j : ℕ) (p : Player) :
    (v.setP i p).getCtrl j = v.getCtrl j := by
  unfold Versus.getCtrl Versus.setP
  split <;> split <;> rfl

@[simp] theorem getFall_setP (v : Versus) (i j : ℕ) (p : Player) :
    (v.setP i p).getFall j = v.getFall j := by
  unfold Versus.getFall Versus.setP
  split <;> split <;> rfl

@[simp] theorem getP_setStats (v : Versus) (i j : ℕ) (s : PlayerStats) :
    (v.setStats i s).getP j = v.getP j := by
  unfold Versus.getP Versus.setStats
  split <;> split <;> rfl

@[simp] theorem getCtrl_setStats (v : Versus) (i j : ℕ) (s : PlayerStats) :
    (v.setStats i s).getCtrl j = v.getCtrl j := by
  unfold Versus.getCtrl Versus.setStats
  split <;> split <;> rfl

@[simp] theorem getFall_setStats (v : Versus) (i j : ℕ) (s : PlayerStats) :
    (v.setStats i s).getFall j = v.getFall j := by
  unfold Versus.getFall Versus.setStats
  split <;> split <;> rfl

@[simp] theorem getStats_setStats (v : Versus) (i : ℕ) (s : PlayerStats) :
    (v.setStats i s).getStats i = s := by
  unfold Versus.getStats Versus.setStats
  split <;> simp

@[simp] theorem getP_setCtrl (v : Versus) (i j : ℕ) (c : Controller) :
    (v.setCtrl i c).getP j = v.getP j := by
  unfold Versus.getP Versus.setCtrl
  split <;> split <;> rfl

@[simp] theorem getStats_setCtrl (v : Versus) (i j : ℕ) (c : Controller) :
    (v.setCtrl i c).getStats j = v.getStats j := by
  unfold Versus.getStats Versus.setCtrl
  split <;> split <;> rfl

@[simp] theorem getFall_setCtrl (v : Versus) (i j : ℕ) (c : Controller) :
    (v.setCtrl i c).getFall j = v.getFall j := by
  unfold Versus.getFall Versus.setCtrl
  split <;> split <;> rfl

@[simp] theorem getCtrl_setCtrl (v : Versus) (i : ℕ) (c : Controller) :
    (v.setCtrl i c).getCtrl i = c := by
  unfold Versus.getCtrl Versus.setCtrl
  split <;> simp

@[simp] theorem getP_setFall (v : Versus) (i j : ℕ) (q : ℚ) :
    (v.setFall i q).getP j = v.getP j := by
  unfold Versus.getP Versus.setFall
  split <;> split <;> rfl

@[simp] theorem getStats_setFall (v : Versus) (i j : ℕ) (q : ℚ) :
    (v.setFall i q).getStats j = v.getStats j := by
  unfold Versus.getStats Versus.setFall
  split <;> split <;> rfl

@[simp] theorem getCtrl_setFall (v : Versus) (i j : ℕ) (q : ℚ) :
    (v.setFall i q).getCtrl j = v.getCtrl j := by
  unfold Versus.getCtrl Versus.setFall
  split <;> split <;> rfl

@[simp] theorem settings_setP (v : Versus) (i : ℕ) (p : Player) :
    (v.setP i p).settings = v.settings := by
  unfold Versus.setP
  split <;> rfl

@[simp] theorem gravity_setP (v : Versus) (i : ℕ) (p : Player) :
    (v.setP i p).gravity_ms = v.gravity_ms := by
  unfold Versus.setP
  split <;> rfl

theorem getP_setP_of_ne (v : Versus) {i j : ℕ} (p : Player)
    (hi : i < 2) (hj : j < 2) (hne : i ≠ j) :
    (v.setP i p).getP j = v.getP j := by
  unfold Versus.getP Versus.setP
  interval_cases i <;> interval_cases j <;> simp_all

/-! Behaviour of the rotation kick loop. -/

theorem kick_loop_fail_state (v : Versus) (idx : ℕ) (to_ : Rotation)
    (ks : List (ℤ × ℤ)) (h : (kick_loop v idx to_ ks).1 = false) :
    (kick_loop v idx to_ ks).2 = v := by
  induction ks with
  | nil => rfl
  | cons k rest ih =>
    cases hc : (v.getP idx).board.collision { (v.getP idx).active with
        rotation := to_, x := (v.getP idx).active.x + k.1,
        y := (v.getP idx).active.y + k.2 } with
    | true =>
      simp only [kick_loop, hc, Bool.not_true, Bool.false_eq_true, if_false] at h ⊢
      exact ih h
    | false =>
      simp only [kick_loop, hc] at h
      simp at h

theorem kick_loop_success_spec (v : Versus) (idx : ℕ) (to_ : Rotation)
    (ks : List (ℤ × ℤ)) (h : (kick_loop v idx to_ ks).1 = true) :
    ((kick_loop v idx to_ ks).2.getP idx).active.rotation = to_
    ∧ ((kick_loop v idx to_ ks).2.getP idx).active.piece = (v.getP idx).active.piece
    ∧ ((kick_loop v idx to_ ks).2.getP idx).last_action_was_t_spin
        = ((v.getP idx).active.piece == Tetromino.T)
    ∧ ((kick_loop v idx to_ ks).2.getP idx).hold = (v.getP idx).hold
    ∧ ((kick_loop v idx to_ ks).2.getP idx).held_on_turn = (v.getP idx).held_on_turn := by
  induction ks with
  | nil => simp [kick_loop] at h
  | cons k rest ih =>
    cases hc : (v.getP idx).board.collision { (v.getP idx).active with
        rotation := to_, x := (v.getP idx).active.x + k.1,
        y := (v.getP idx).active.y + k.2 } with
    | true =>
      simp only [kick_loop, hc, Bool.not_true, Bool.false_eq_true, if_false] at h ⊢
      exact ih h
    | false =>
      simp only [kick_loop, hc]
      simp [getP_setP]

theorem try_rotate_single_fail_state (v : Versus) (idx : ℕ) (cw : Bool)
    (h : (v.try_rotate_single idx cw).1 = false) :
    (v.try_rotate_single idx cw).2 = v :=
  kick_loop_fail_state v idx _ _ h

theorem try_rotate_single_success_spec (v : Versus) (idx : ℕ) (cw : Bool)
    (h : (v.try_rotate_single idx cw).1 = true) :
    ((v.try_rotate_single idx cw).2.getP idx).active.rotation
      = (if cw then ((v.getP idx).active.rotation).rotate_cw
         else ((v.getP idx).active.rotation).rotate_ccw)
    ∧ ((v.try_rotate_single idx cw).2.getP idx).active.piece
        = (v.getP idx).active.piece
    ∧ ((v.try_rotate_single idx cw).2.getP idx).last_action_was_t_spin
        = ((v.getP idx).active.piece == Tetromino.T) :=
  have hs := kick_loop_success_spec v idx _ _ h
  ⟨hs.1, hs.2.1, hs.2.2.1⟩

/-- C9: if either player's topped_out flag is set, Versus::tick returns
without touching any state: the tick is a no-op on the entire Versus
state for every dt and input frame. -/
theorem c9_tick_noop_when_topped (v : Versus) (dt : ℚ) (input0 : InputState)
    (h : v.player0.topped_out = true ∨ v.player1.topped_out = true) :
    v.tick dt input0 = v := by
  unfold Versus.tick
  rcases h with h | h <;> simp [h]

/-- Witness for C9 at a concrete topped-out state. -/
theorem c9_tick_noop_witness :
    ({ ex_versus with player0 := { ex_player with topped_out := true } } : Versus).tick
        5 InputState.idle
      = { ex_versus with player0 := { ex_player with topped_out := true } } :=
  c9_tick_noop_when_topped _ 5 InputState.idle (Or.inl rfl)

theorem try_shift_preserves_flag (v : Versus) (idx : ℕ) (dir : ℤ) :
    ((v.try_shift idx dir).2.getP idx).last_action_was_t_spin
      = (v.getP idx).last_action_was_t_spin := by
  unfold Versus.try_shift
  cases hc : (v.getP idx).board.collision { (v.getP idx).active with
      x := (v.getP idx).active.x + dir } with
  | true => simp [hc]
  | false => simp [hc, getP_setP]

/-- C2 (corrected) counterexample: from the fixture state a T rotation
succeeds (setting last_action_was_t_spin), then a shift succeeds, and
the flag is still true afterwards - the claimed reset to false on a
successful shift does not happen. -/
theorem c2_shift_keeps_tspin_flag_counterexample :
    (ex_versus.try_rotate 0 true false).1 = true
    ∧ ((ex_versus.try_rotate 0 true false).2.try_shift 0 1).1 = true
    ∧ (((ex_versus.try_rotate 0 true false).2.try_shift 0 1).2.getP 0).last_action_was_t_spin
        = true := by
  decide

/-- C2 (amended): a successful rotation sets last_action_was_t_spin to
whether the piece is T; a successful (or failed) shift leaves the flag
unchanged; and a lock counts as a T-spin exactly when the flag is set,
the piece is T and lines were cleared. -/
theorem c2_tspin_flag_semantics (v : Versus) (idx : ℕ) (dir : ℤ) (cw : Bool) :
    (((v.try_shift idx dir).2.getP idx).last_action_was_t_spin
        = (v.getP idx).last_action_was_t_spin)
    ∧ ((v.try_rotate_single idx cw).1 = true →
        ((v.try_rotate_single idx cw).2.getP idx).last_action_was_t_spin
          = ((v.getP idx).active.piece == Tetromino.T))
    ∧ ((v.getP idx).lock_piece.2.2
        = ((v.getP idx).last_action_was_t_spin
            && ((v.getP idx).active.piece == Tetromino.T)
            && decide (0 < (v.getP idx).lock_piece.2.1))) :=
  ⟨try_shift_preserves_flag v idx dir,
   fun h => (try_rotate_single_success_spec v idx cw h).2.2,
   rfl⟩

/-- Witness for C2 (amended) at the fixture state: the rotation-success
hypothesis is discharged concretely. -/
theorem c2_tspin_flag_semantics_witness :
    (ex_versus.try_rotate_single 0 true).1 = true
    ∧ ((ex_versus.try_rotate_single 0 true).2.getP 0).last_action_was_t_spin
        = ((ex_versus.getP 0).active.piece == Tetromino.T) :=
  ⟨by decide, (c2_tspin_flag_semantics ex_versus 0 1 true).2.1 (by decide)⟩

/-- C6: a 180-degree rotation is two sequential 90-degree rotations in
the chosen direction, each resolved with its own kick list; when the
first succeeds and the second fails the piece stays in the intermediate
orientation (the first rotation is not reverted). -/
theorem c6_rotate180_two_sequential (v : Versus) (idx : ℕ) (cw : Bool) :
    (v.try_rotate idx cw true).1
        = ((v.try_rotate_single idx cw).1
            || ((v.try_rotate_single idx cw).2.try_rotate_single idx cw).1)
    ∧ (v.try_rotate idx cw true).2
        = ((v.try_rotate_single idx cw).2.try_rotate_single idx cw).2
    ∧ ((v.try_rotate_single idx cw).1 = true →
        ((v.try_rotate_single idx cw).2.try_rotate_single idx cw).1 = false →
          (v.try_rotate idx cw true).2 = (v.try_rotate_single idx cw).2
          ∧ ((v.try_rotate idx cw true).2.getP idx).active.rotation
              = (if cw then ((v.getP idx).active.rotation).rotate_cw
                 else ((v.getP idx).active.rotation).rotate_ccw)) := by
  refine ⟨rfl, rfl, fun h1 h2 => ?_⟩
  have hfail := try_rotate_single_fail_state _ idx cw h2
  have hsucc := try_rotate_single_success_spec v idx cw h1
  constructor
  · show ((v.try_rotate_single idx cw).2.try_rotate_single idx cw).2 = _
    exact hfail
  · show (((v.try_rotate_single idx cw).2.try_rotate_single idx cw).2.getP idx).active.rotation = _
    rw [hfail]
    exact hsucc.1

/-- Witness for C6: on c6_board the first clockwise rotation of the T
succeeds in place and all kicks of the second fail, leaving the piece in
the intermediate Right orientation. -/
theorem c6_rotate180_witness :
    (c6_versus.try_rotate_single 0 true).1 = true
    ∧ ((c6_versus.try_rotate_single 0 true).2.try_rotate_single 0 true).1 = false
    ∧ (c6_versus.try_rotate 0 true true).2 = (c6_versus.try_rotate_single 0 true).2
    ∧ ((c6_versus.try_rotate 0 true true).2.getP 0).active.rotation = Rotation.Right := by
  have h1 : (c6_versus.try_rotate_single 0 true).1 = true := by decide
  have h2 : ((c6_versus.try_rotate_single 0 true).2.try_rotate_single 0 true).1 = false := by
    decide
  have hm := (c6_rotate180_two_sequential c6_versus 0 true).2.2 h1 h2
  exact ⟨h1, h2, hm.1, hm.2.trans (by decide)⟩

/-! Line-clear invariant (C7). -/

/-- The well-formedness the source guarantees by construction: the cell
matrix is exactly 40 rows of 10 cells. -/
def board_wf (cells : List (List ℕ)) : Prop :=
  cells.length = TOTAL_HEIGHT ∧ ∀ r ∈ cells, r.length = WIDTH

theorem getElem?_eraseIdx_lt (l : List (List ℕ)) {i y : ℕ} (h : i < y)
    (hy : y < l.length) : (l.eraseIdx y)[i]? = l[i]? := by
  rw [List.eraseIdx_eq_take_drop_succ, List.getElem?_append, List.getElem?_take]
  simp [List.length_take, Nat.min_eq_left hy.le, h]

theorem getD_clear_step_lt (cells : List (List ℕ)) {i y : ℕ} (h : i < y)
    (hy : y < cells.length) :
    (clear_step cells y).getD i [] = cells.getD i [] := by
  rw [List.getD_eq_getElem?_getD, List.getD_eq_getElem?_getD, clear_step,
    List.getElem?_append]
  have hlen : (cells.eraseIdx y).length = cells.length - 1 := by
    rw [List.length_eraseIdx]
    simp [hy]
  rw [getElem?_eraseIdx_lt cells h hy]
  have : i < (cells.eraseIdx y).length := by omega
  simp [this]

theorem clear_step_wf {cells : List (List ℕ)} {y : ℕ} (hy : y < cells.length)
    (hw : board_wf cells) : board_wf (clear_step cells y) := by
  obtain ⟨hlen, hrows⟩ := hw
  constructor
  · rw [clear_step, List.length_append, List.length_eraseIdx]
    simp [hy]
    omega
  · intro r hr
    rw [clear_step, List.mem_append] at hr
    rcases hr with hr | hr
    · exact hrows r (List.eraseIdx_subset _ _ hr)
    · rcases List.mem_singleton.mp hr with rfl
      simp

theorem clear_loop_spec : ∀ (cells : List (List ℕ)) (y cleared : ℕ),
    board_wf cells → (∀ i, i < y → row_full (cells.getD i []) = false) →
    board_wf (clear_loop cells y cleared).1
    ∧ ∀ i, i < VISIBLE_HEIGHT →
        row_full ((clear_loop cells y cleared).1.getD i []) = false := by
  intro cells y cleared
  induction cells, y, cleared using clear_loop.induct with
  | case1 cells y cleared hlt hf ih =>
    intro hw hprev
    have hy : y < cells.length := row_full_getD_lt hf
    rw [clear_loop]
    simp only [hlt, hf, dite_true, if_true, dif_pos]
    exact ih (clear_step_wf hy hw)
      (fun i hi => (getD_clear_step_lt cells hi hy).symm ▸ hprev i hi)
  | case2 cells y cleared hlt hf ih =>
    intro hw hprev
    rw [clear_loop]
    simp only [hlt, hf, dif_pos, dif_neg]
    exact ih hw (fun i hi => by
      rcases Nat.lt_succ_iff_lt_or_eq.mp hi with hi2 | rfl
      · exact hprev i hi2
      · exact Bool.not_eq_true _ ▸ hf)
  | case3 cells y cleared hge =>
    intro hw hprev
    rw [clear_loop]
    simp only [hge, dif_neg]
    exact ⟨hw, fun i hi => hprev i (by omega)⟩

/-- C7: Board::clear_lines scans visible rows bottom-up, removing each
full row (rechecking the same index after the pull-down, shifting all
rows above - buffer included - down by one and zeroing the top buffer
row) and returns the number of rows removed; afterwards no visible row
is entirely non-zero, and the 40-rows-by-10-cells shape of the board is
preserved. -/
theorem c7_clear_lines_no_full_visible_row (b : Board) (hw : board_wf b.cells) :
    board_wf b.clear_lines.1.cells
    ∧ ∀ i, i < VISIBLE_HEIGHT →
        row_full (b.clear_lines.1.cells.getD i []) = false :=
  clear_loop_spec b.cells 0 0 hw (fun i hi => absurd hi (by omega))

/-- A board whose bottom row is full. -/
def c7_board : Board :=
  ⟨List.replicate WIDTH 1 :: List.replicate (TOTAL_HEIGHT - 1) (List.replicate WIDTH 0)⟩

/-- Witness for C7 at a concrete board with one full row. -/
theorem c7_clear_lines_witness :
    board_wf c7_board.clear_lines.1.cells
    ∧ ∀ i, i < VISIBLE_HEIGHT →
        row_full (c7_board.clear_lines.1.cells.getD i []) = false :=
  c7_clear_lines_no_full_visible_row c7_board
    (by constructor <;> decide)

example : c7_board.clear_lines.2 = 1 := by
  simp +decide [Board.clear_lines, clear_loop, clear_step, row_full, c7_board,
    WIDTH, VISIBLE_HEIGHT, TOTAL_HEIGHT, BUFFER_HEIGHT]
example : Board.new.clear_lines.2 = 0 := by
  simp +decide [Board.clear_lines, clear_loop, clear_step, row_full, Board.new,
    WIDTH, VISIBLE_HEIGHT, TOTAL_HEIGHT, BUFFER_HEIGHT]

/-! Preservation lemmas: which player fields each engine operation can
touch.  Used for C4 (level-triggered hold) and the lock-delay claims. -/

theorem getP_setP_opp (v : Versus) (idx : ℕ) (p : Player) :
    (v.setP (if idx = 0 then 1 else 0) p).getP idx = v.getP idx := by
  unfold Versus.getP Versus.setP
  by_cases h : idx = 0 <;> simp [h]

@[simp] theorem getP0_setP1 (v : Versus) (p : Player) :
    (v.setP 1 p).getP 0 = v.getP 0 := by
  unfold Versus.getP Versus.setP
  simp

@[simp] theorem getP_setP0_of_ne (v : Versus) (p : Player) {j : ℕ} (h : ¬j = 0) :
    (v.setP 0 p).getP j = v.getP j := by
  unfold Versus.getP Versus.setP
  simp [h]

theorem try_shift_preserves (v : Versus) (idx : ℕ) (dir : ℤ) :
    ((v.try_shift idx dir).2.getP idx).hold = (v.getP idx).hold
    ∧ ((v.try_shift idx dir).2.getP idx).held_on_turn = (v.getP idx).held_on_turn
    ∧ ((v.try_shift idx dir).2.getP idx).active.piece = (v.getP idx).active.piece := by
  unfold Versus.try_shift
  cases hc : (v.getP idx).board.collision { (v.getP idx).active with
      x := (v.getP idx).active.x + dir } with
  | true => simp [hc]
  | false => simp [hc, getP_setP]

theorem try_fall_preserves_hold (v : Versus) (idx : ℕ) :
    ((v.try_fall idx).2.getP idx).hold = (v.getP idx).hold := by
  unfold Versus.try_fall
  cases hc : (v.getP idx).board.collision { (v.getP idx).active with
      y := (v.getP idx).active.y - 1 } with
  | true => simp [hc]
  | false => simp [hc, getP_setP]

theorem try_rotate_single_preserves (v : Versus) (idx : ℕ) (cw : Bool) :
    ((v.try_rotate_single idx cw).2.getP idx).hold = (v.getP idx).hold
    ∧ ((v.try_rotate_single idx cw).2.getP idx).held_on_turn
        = (v.getP idx).held_on_turn
    ∧ ((v.try_rotate_single idx cw).2.getP idx).active.piece
        = (v.getP idx).active.piece := by
  cases hres : (v.try_rotate_single idx cw).1 with
  | false => rw [try_rotate_single_fail_state v idx cw hres]; exact ⟨rfl, rfl, rfl⟩
  | true =>
    have hs := kick_loop_success_spec v idx _ _ hres
    exact ⟨hs.2.2.2.1, hs.2.2.2.2, hs.2.1⟩

theorem try_rotate_preserves (v : Versus) (idx : ℕ) (cw double : Bool) :
    ((v.try_rotate idx cw double).2.getP idx).hold = (v.getP idx).hold
    ∧ ((v.try_rotate idx cw double).2.getP idx).held_on_turn
        = (v.getP idx).held_on_turn
    ∧ ((v.try_rotate idx cw double).2.getP idx).active.piece
        = (v.getP idx).active.piece := by
  cases double with
  | false => exact try_rotate_single_preserves v idx cw
  | true =>
    have h1 := try_rotate_single_preserves v idx cw
    have h2 := try_rotate_single_preserves (v.try_rotate_single idx cw).2 idx cw
    refine ⟨?_, ?_, ?_⟩
    · exact h2.1.trans h1.1
    · exact h2.2.1.trans h1.2.1
    · exact h2.2.2.trans h1.2.2

theorem arr_loop_preserves (v : Versus) (idx : ℕ) (dir : ℤ) (s : ℕ)
    (t : ℚ) (m : Bool) :
    ((arr_loop v idx dir s t m).2.2.getP idx).hold = (v.getP idx).hold
    ∧ ((arr_loop v idx dir s t m).2.2.getP idx).held_on_turn
        = (v.getP idx).held_on_turn
    ∧ ((arr_loop v idx dir s t m).2.2.getP idx).active.piece
        = (v.getP idx).active.piece := by
  induction v, idx, dir, s, t, m using arr_loop.induct with
  | case1 v idx dir s t m step hle r hr ih =>
    have hs := try_shift_preserves v idx dir
    have hr2 : (v.try_shift idx dir).1 = true := hr
    have hle2 : ((s ⊔ 1 : ℕ) : ℚ) ≤ t := hle
    rw [arr_loop, if_pos hle2, if_pos hr2]
    exact ⟨ih.1.trans hs.1, ih.2.1.trans hs.2.1, ih.2.2.trans hs.2.2⟩
  | case2 v idx dir s t m step hle r hr =>
    have hr2 : ¬(v.try_shift idx dir).1 = true := hr
    have hle2 : ((s ⊔ 1 : ℕ) : ℚ) ≤ t := hle
    rw [arr_loop, if_pos hle2, if_neg hr2]
    exact ⟨rfl, rfl, rfl⟩
  | case3 v idx dir s t m step hgt =>
    have hle2 : ¬((s ⊔ 1 : ℕ) : ℚ) ≤ t := hgt
    rw [arr_loop, if_neg hle2]
    exact ⟨rfl, rfl, rfl⟩

theorem shift_section_preserves (v : Versus) (idx : ℕ) (dir : ℤ) (dt : ℚ)
    (das arr : ℚ) (sh : Bool) :
    ((shift_section v idx dir dt das arr sh).state.getP idx).hold = (v.getP idx).hold
    ∧ ((shift_section v idx dir dt das arr sh).state.getP idx).held_on_turn
        = (v.getP idx).held_on_turn
    ∧ ((shift_section v idx dir dt das arr sh).state.getP idx).active.piece
        = (v.getP idx).active.piece := by
  unfold shift_section
  by_cases hdir : dir ≠ 0
  · rw [if_pos hdir]
    cases sh with
    | false =>
      rw [if_pos (by decide : (!false) = true)]
      have h1 := try_shift_preserves v idx dir
      by_cases hdas : ((v.try_shift idx dir).2.settings.das : ℚ) ≤ das + dt
      · rw [if_pos hdas]
        have h2 := arr_loop_preserves (v.try_shift idx dir).2 idx dir
          (v.try_shift idx dir).2.settings.arr (arr + dt) (v.try_shift idx dir).1
        exact ⟨h2.1.trans h1.1, h2.2.1.trans h1.2.1, h2.2.2.trans h1.2.2⟩
      · rw [if_neg hdas]
        exact h1
    | true =>
      rw [if_neg (by decide : ¬(!true) = true)]
      by_cases hdas : ((v.settings.das : ℚ)) ≤ das + dt
      · rw [if_pos hdas]
        exact arr_loop_preserves v idx dir v.settings.arr (arr + dt) false
      · rw [if_neg hdas]
        exact ⟨rfl, rfl, rfl⟩
  · rw [if_neg hdir]
    exact ⟨rfl, rfl, rfl⟩

theorem refill_loop_preserves_hold (p : Player) :
    (refill_loop p).hold = p.hold ∧ (refill_loop p).topped_out = p.topped_out := by
  induction p using refill_loop.induct with
  | case1 p hlt d ih =>
    rw [refill_loop, if_pos hlt]
    exact ih
  | case2 p hge =>
    rw [refill_loop, if_neg hge]
    exact ⟨rfl, rfl⟩

theorem spawn_next_preserves_hold (p : Player) :
    (Player.spawn_next p).hold = p.hold := by
  have hr := (refill_loop_preserves_hold { p with
    held_on_turn := false, last_action_was_t_spin := false,
    queue := p.queue.tail, last_refill_added := none }).1
  simp only [Player.spawn_next, Player.refill_queue]
  split <;> simpa using hr

theorem lock_piece_preserves_hold (p : Player) :
    p.lock_piece.1.hold = p.hold := by
  unfold Player.lock_piece
  simp only
  have := spawn_next_preserves_hold { p with
    board := ((p.board.lock_piece p.active.x p.active.y p.active.blocks
      p.active.piece.color_id).clear_lines).1 }
  simpa using this

theorem on_piece_locked_preserves (v : Versus) (idx : ℕ) (cleared : ℕ) (ts : Bool) :
    ((v.on_piece_locked idx cleared ts).getP idx).hold = (v.getP idx).hold := by
  unfold Versus.on_piece_locked
  simp only
  split_ifs <;> simp_all [getP_setP, getP_setP_opp]

theorem gravity_loop_preserves_hold (v : Versus) (idx : ℕ) (accum : ℚ) :
    ((gravity_loop v idx accum).2.getP idx).hold = (v.getP idx).hold := by
  induction v, idx, accum using gravity_loop.induct with
  | case1 v idx accum hle r hr ih =>
    have hr2 : (v.try_fall idx).1 = true := hr
    rw [gravity_loop, if_pos hle, dif_pos hr2]
    exact ih.trans (try_fall_preserves_hold v idx)
  | case2 v idx accum hle r hr =>
    have hr2 : ¬(v.try_fall idx).1 = true := hr
    rw [gravity_loop, if_pos hle, dif_neg hr2]
  | case3 v idx accum hgt =>
    rw [gravity_loop, if_neg hgt]

theorem lock_delay_phase_preserves_hold (v : Versus) (idx : ℕ) (dt : ℚ)
    (moved rotated : Bool) :
    ((v.lock_delay_phase idx dt moved rotated).getP idx).hold = (v.getP idx).hold := by
  unfold Versus.lock_delay_phase
  simp only
  split_ifs <;>
    simp [getP_setP, lock_piece_preserves_hold, on_piece_locked_preserves]

attribute [simp] try_fall_preserves_hold gravity_loop_preserves_hold
  lock_delay_phase_preserves_hold on_piece_locked_preserves
  spawn_next_preserves_hold lock_piece_preserves_hold

@[simp] theorem try_shift_hold (v : Versus) (idx : ℕ) (dir : ℤ) :
    ((v.try_shift idx dir).2.getP idx).hold = (v.getP idx).hold :=
  (try_shift_preserves v idx dir).1

@[simp] theorem try_shift_held (v : Versus) (idx : ℕ) (dir : ℤ) :
    ((v.try_shift idx dir).2.getP idx).held_on_turn = (v.getP idx).held_on_turn :=
  (try_shift_preserves v idx dir).2.1

@[simp] theorem try_shift_piece (v : Versus) (idx : ℕ) (dir : ℤ) :
    ((v.try_shift idx dir).2.getP idx).active.piece = (v.getP idx).active.piece :=
  (try_shift_preserves v idx dir).2.2

@[simp] theorem rot_step_hold (v : Versus) (idx : ℕ) (cw dbl b : Bool) :
    ((if b = true then v.try_rotate idx cw dbl else (false, v)).2.getP idx).hold
      = (v.getP idx).hold := by
  cases b
  · rfl
  · simp only [if_pos]
    exact (try_rotate_preserves v idx cw dbl).1

@[simp] theorem rot_step_held (v : Versus) (idx : ℕ) (cw dbl b : Bool) :
    ((if b = true then v.try_rotate idx cw dbl else (false, v)).2.getP idx).held_on_turn
      = (v.getP idx).held_on_turn := by
  cases b
  · rfl
  · simp only [if_pos]
    exact (try_rotate_preserves v idx cw dbl).2.1

@[simp] theorem rot_step_piece (v : Versus) (idx : ℕ) (cw dbl b : Bool) :
    ((if b = true then v.try_rotate idx cw dbl else (false, v)).2.getP idx).active.piece
      = (v.getP idx).active.piece := by
  cases b
  · rfl
  · simp only [if_pos]
    exact (try_rotate_preserves v idx cw dbl).2.2

@[simp] theorem shift_section_hold (v : Versus) (idx : ℕ) (dir : ℤ) (dt das arr : ℚ)
    (sh : Bool) :
    ((shift_section v idx dir dt das arr sh).state.getP idx).hold = (v.getP idx).hold :=
  (shift_section_preserves v idx dir dt das arr sh).1

@[simp] theorem shift_section_held (v : Versus) (idx : ℕ) (dir : ℤ) (dt das arr : ℚ)
    (sh : Bool) :
    ((shift_section v idx dir dt das arr sh).state.getP idx).held_on_turn
      = (v.getP idx).held_on_turn :=
  (shift_section_preserves v idx dir dt das arr sh).2.1

@[simp] theorem shift_section_piece (v : Versus) (idx : ℕ) (dir : ℤ) (dt das arr : ℚ)
    (sh : Bool) :
    ((shift_section v idx dir dt das arr sh).state.getP idx).active.piece
      = (v.getP idx).active.piece :=
  (shift_section_preserves v idx dir dt das arr sh).2.2

@[simp] theorem ite_setCtrl_getP (v : Versus) (idx : ℕ) (c : Prop) [Decidable c]
    (ctrl : Controller) :
    ((if c then v.setCtrl idx ctrl else v).getP idx) = v.getP idx := by
  split <;> simp

@[simp] theorem ite_setCtrl_getP2 (v : Versus) (idx : ℕ) (c : Prop) [Decidable c]
    (ctrl : Controller) :
    ((if c then v else v.setCtrl idx ctrl).getP idx) = v.getP idx := by
  split <;> simp

@[simp] theorem pre_hold_phase_hold (v : Versus) (idx : ℕ) (dt : ℚ) (inputs : InputState) :
    ((pre_hold_phase v idx dt inputs).2.2.getP idx).hold = (v.getP idx).hold := by
  unfold pre_hold_phase
  simp

@[simp] theorem pre_hold_phase_held (v : Versus) (idx : ℕ) (dt : ℚ) (inputs : InputState) :
    ((pre_hold_phase v idx dt inputs).2.2.getP idx).held_on_turn
      = (v.getP idx).held_on_turn := by
  unfold pre_hold_phase
  simp

@[simp] theorem pre_hold_phase_piece (v : Versus) (idx : ℕ) (dt : ℚ) (inputs : InputState) :
    ((pre_hold_phase v idx dt inputs).2.2.getP idx).active.piece
      = (v.getP idx).active.piece := by
  unfold pre_hold_phase
  simp

theorem try_hold_sets_hold (v : Versus) (idx : ℕ)
    (h : (v.getP idx).held_on_turn = false) :
    ((v.try_hold idx).getP idx).hold = some (v.getP idx).active.piece := by
  unfold Versus.try_hold
  rw [if_neg (by simp [h])]
  cases hh : (v.getP idx).hold with
  | some held => simp [hh, getP_setP]
  | none => simp [hh, getP_setP]

/-- C4 (amended): the hold attempt in Versus::advance_player is
level-triggered, not edge-triggered.  On any tick where the hold input
is true, no hard drop fires and the player has not already held this
turn, the hold is (re-)attempted and succeeds: afterwards the hold slot
holds the piece that was active when the tick began - regardless of
whether the input is freshly pressed or has been held since earlier
ticks. -/
theorem c4_hold_is_level_triggered (v : Versus) (idx : ℕ) (dt : ℚ)
    (inputs : InputState) (b : Bool)
    (hnt : (v.getP idx).topped_out = false)
    (hhd : ((v.getCtrl idx).take_hard_drop).1 = false)
    (hhold : inputs.hold = true)
    (hheld : (v.getP idx).held_on_turn = false) :
    ((v.advance_player idx dt inputs b).getP idx).hold
      = some ((v.getP idx).active.piece) := by
  unfold Versus.advance_player
  rw [if_neg (by simp [hnt])]
  simp only
  rw [if_neg (by simp [hhd])]
  rw [if_pos (by simp [hhold])]
  have hheld2 : ((pre_hold_phase (v.setCtrl idx ((v.getCtrl idx).take_hard_drop).2)
      idx dt inputs).2.2.getP idx).held_on_turn = false := by
    simp [hheld]
  rw [lock_delay_phase_preserves_hold]
  simp only [getP_setFall]
  rw [gravity_loop_preserves_hold]
  rw [try_hold_sets_hold _ idx hheld2]
  simp

def c4_f_hold : InputState := { InputState.idle with hold := true }

def c4_f_hold_hd : InputState := { InputState.idle with hold := true, hard_drop := true }

def c4_v1 : Versus := ex_versus.tick 1 c4_f_hold

def c4_v2 : Versus := c4_v1.tick 1 c4_f_hold_hd

def c4_v3 : Versus := c4_v2.tick 1 c4_f_hold

/-- Witness for C4 (amended) at the fixture state. -/
theorem c4_hold_is_level_triggered_witness :
    ((ex_versus.advance_player 0 1 c4_f_hold false).getP 0).hold
      = some ((ex_versus.getP 0).active.piece) :=
  c4_hold_is_level_triggered ex_versus 0 1 c4_f_hold false rfl (by decide) rfl rfl

/-- C4 (corrected) counterexample: the hold input is true in every one
of three consecutive frames (a single continuous press: the only rising
edge is before tick 1).  Tick 1 performs the hold (T moves to the hold
slot).  Tick 2 hard-drops and locks the active piece, spawning a new one
and clearing held_on_turn.  Tick 3, still inside the same press, attempts
and performs hold AGAIN (J enters the hold slot and the held T comes
back out) - so hold is not a one-shot action per press. -/
theorem c4_hold_retrigger_counterexample :
    c4_f_hold.hold = true ∧ c4_f_hold_hd.hold = true
    ∧ (c4_v1.getP 0).hold = some Tetromino.T
    ∧ (c4_v3.getP 0).hold = some Tetromino.J
    ∧ (c4_v3.getP 0).active.piece = Tetromino.T := by
  refine ⟨rfl, rfl, ?_⟩
  simp +decide [c4_v1, c4_v2, c4_v3, Versus.tick, Versus.advance_player,
    pre_hold_phase, Versus.getP, Versus.setP,
    Versus.getCtrl, Versus.setCtrl, Versus.getStats, Versus.setStats,
    Versus.getFall, Versus.setFall, Versus.try_hold, Versus.try_shift,
    Versus.try_fall, Versus.try_rotate, Versus.try_rotate_single, kick_loop,
    Versus.lock_delay_phase, Versus.on_piece_locked, shift_section, arr_loop,
    gravity_loop, bot_update, Player.lock_piece, Player.hard_drop,
    hard_drop_loop, Player.spawn_next, Player.refill_queue, refill_loop,
    Board.clear_lines, clear_loop, clear_step, row_full, Board.lock_piece,
    Board.collision, Board.is_occupied, Board.add_garbage, Board.max_height,
    max_height_aux, Board.visible_empty, ActivePiece.blocks, ActivePiece.new,
    shape_blocks, rotate_point, kicks, Controller.take_hard_drop,
    Controller.take_rotate_cw, Controller.take_rotate_ccw,
    Controller.take_rotate_180, Controller.update_inputs, Controller.new,
    count_input_edges, attack_before_cancel_calc, sat_add, U32_MAX,
    Tetromino.color_id, SoftDropSpeed.factor, GameSettings.init,
    InputState.idle, PlayerStats.init, ex_versus, ex_player, Board.new,
    c4_f_hold, c4_f_hold_hd, RandState.next, Rotation.rotate_cw,
    Rotation.rotate_ccw, WIDTH, VISIBLE_HEIGHT, TOTAL_HEIGHT, BUFFER_HEIGHT,
    LOCK_DELAY_MS, default_attack_table, default_combo_table]

/-- The ground test of Versus::advance_player: collision of the active
piece translated by (0, -1). -/
def on_ground (v : Versus) (idx : ℕ) : Bool :=
  (v.getP idx).board.collision
    { (v.getP idx).active with y := (v.getP idx).active.y - 1 }

theorem on_piece_locked_pieces (v : Versus) (idx : ℕ) (cleared : ℕ) (ts : Bool) :
    ((v.on_piece_locked idx cleared ts).getStats idx).pieces
      = sat_add ((v.getStats idx).pieces) 1 := by
  unfold Versus.on_piece_locked
  simp only
  split_ifs <;> simp_all [getP_setP, getP_setP_opp]


theorem ldp_ground_reset (v : Versus) (idx : ℕ) (dt : ℚ) (moved rotated : Bool)
    (hog : (v.getP idx).board.collision { (v.getP idx).active with
      y := (v.getP idx).active.y - 1 } = true)
    (hrm : (rotated || moved) = true)
    (hres : 0 < (v.getP idx).active.move_resets)
    (heff : 0 < LOCK_DELAY_MS - dt) :
    ((v.lock_delay_phase idx dt moved rotated).getP idx).active
      = { (v.getP idx).active with
          lock_timer := LOCK_DELAY_MS - dt,
          move_resets := (v.getP idx).active.move_resets - 1 } := by
  unfold Versus.lock_delay_phase
  simp only
  have hB : ((v.getP idx).board.collision { (v.getP idx).active with
      y := (v.getP idx).active.y - 1 } && decide (0 < (v.getP idx).active.move_resets))
      = true := by
    rw [hog]
    simp [hres]
  rw [if_pos hrm, if_pos hB, if_pos hog]
  simp only [getP_setP]
  split_ifs with ht
  · exfalso
    simp only at ht
    linarith
  · simp [getP_setP]

theorem ldp_ground_no_reset (v : Versus) (idx : ℕ) (dt : ℚ) (moved rotated : Bool)
    (hog : (v.getP idx).board.collision { (v.getP idx).active with
      y := (v.getP idx).active.y - 1 } = true)
    (hact : ¬((rotated || moved) = true ∧ 0 < (v.getP idx).active.move_resets))
    (heff : 0 < (v.getP idx).active.lock_timer - dt) :
    ((v.lock_delay_phase idx dt moved rotated).getP idx).active
      = { (v.getP idx).active with
          lock_timer := (v.getP idx).active.lock_timer - dt } := by
  unfold Versus.lock_delay_phase
  simp only
  have hv1 : (if (rotated || moved) = true then
      (if ((v.getP idx).board.collision { (v.getP idx).active with
          y := (v.getP idx).active.y - 1 }
            && decide (0 < (v.getP idx).active.move_resets)) = true then
        v.setP idx { v.getP idx with active := { (v.getP idx).active with
          lock_timer := LOCK_DELAY_MS,
          move_resets := (v.getP idx).active.move_resets - 1 } }
      else v)
    else v) = v := by
    by_cases hrm : (rotated || moved) = true
    · rw [if_pos hrm, if_neg]
      simp only [Bool.and_eq_true, decide_eq_true_eq]
      intro hc
      exact hact ⟨hrm, hc.2⟩
    · rw [if_neg hrm]
  rw [hv1, if_pos hog]
  split_ifs with ht
  · exfalso
    simp only at ht
    linarith
  · simp [getP_setP]

theorem ldp_ground_lock (v : Versus) (idx : ℕ) (dt : ℚ) (moved rotated : Bool)
    (hog : (v.getP idx).board.collision { (v.getP idx).active with
      y := (v.getP idx).active.y - 1 } = true)
    (heff : (if (rotated || moved) = true ∧ 0 < (v.getP idx).active.move_resets
             then LOCK_DELAY_MS else (v.getP idx).active.lock_timer) - dt ≤ 0) :
    ((v.lock_delay_phase idx dt moved rotated).getStats idx).pieces
      = sat_add ((v.getStats idx).pieces) 1 := by
  unfold Versus.lock_delay_phase
  simp only
  by_cases hact : (rotated || moved) = true ∧ 0 < (v.getP idx).active.move_resets
  · obtain ⟨hrm, hres⟩ := hact
    have hB : ((v.getP idx).board.collision { (v.getP idx).active with
        y := (v.getP idx).active.y - 1 } && decide (0 < (v.getP idx).active.move_resets))
        = true := by
      rw [hog]
      simp [hres]
    rw [if_pos hrm, if_pos hB, if_pos hog]
    simp only [getP_setP]
    rw [if_pos (show LOCK_DELAY_MS - dt ≤ 0 from by
      rw [if_pos ⟨hrm, hres⟩] at heff
      exact heff)]
    simp [getP_setP, on_piece_locked_pieces]
  · have hv1 : (if (rotated || moved) = true then
        (if ((v.getP idx).board.collision { (v.getP idx).active with
            y := (v.getP idx).active.y - 1 }
              && decide (0 < (v.getP idx).active.move_resets)) = true then
          v.setP idx { v.getP idx with active := { (v.getP idx).active with
            lock_timer := LOCK_DELAY_MS,
            move_resets := (v.getP idx).active.move_resets - 1 } }
        else v)
      else v) = v := by
      by_cases hrm : (rotated || moved) = true
      · rw [if_pos hrm, if_neg]
        simp only [Bool.and_eq_true, decide_eq_true_eq]
        intro hc
        exact hact ⟨hrm, hc.2⟩
      · rw [if_neg hrm]
    rw [hv1, if_pos hog]
    rw [if_pos (show ((v.getP idx).active.lock_timer - dt : ℚ) ≤ 0 from by
      rw [if_neg hact] at heff
      exact heff)]
    simp [getP_setP, on_piece_locked_pieces]

theorem ldp_airborne (v : Versus) (idx : ℕ) (dt : ℚ) (moved rotated : Bool)
    (hog : (v.getP idx).board.collision { (v.getP idx).active with
      y := (v.getP idx).active.y - 1 } = false) :
    ((v.lock_delay_phase idx dt moved rotated).getP idx).active
      = { (v.getP idx).active with lock_timer := LOCK_DELAY_MS, move_resets := 15 } := by
  unfold Versus.lock_delay_phase
  simp only
  have hv1 : (if (rotated || moved) = true then
      (if ((v.getP idx).board.collision { (v.getP idx).active with
          y := (v.getP idx).active.y - 1 }
            && decide (0 < (v.getP idx).active.move_resets)) = true then
        v.setP idx { v.getP idx with active := { (v.getP idx).active with
          lock_timer := LOCK_DELAY_MS,
          move_resets := (v.getP idx).active.move_resets - 1 } }
      else v)
    else v) = v := by
    by_cases hrm : (rotated || moved) = true
    · rw [if_pos hrm, if_neg (by rw [hog]; simp)]
    · rw [if_neg hrm]
  rw [hv1, if_neg (by rw [hog]; simp)]
  simp [getP_setP]

/-- C5: the lock-delay update at the end of Versus::advance_player.
With on_ground the collision test of the active piece translated by
(0, -1): (a) on ground with no lock firing, the piece keeps its
position and the lock timer becomes (500 ms if a successful shift or
rotation happened with move_resets > 0, else the old timer) minus dt -
the per-tick countdown of §4.3 applies after the reset in the same
tick - and move_resets decrements by exactly 1 when that reset fired
(is unchanged otherwise); (b) on ground with that timer value ≤ 0 the
piece locks (stats.pieces increments); (c) when not on ground the lock
timer returns to 500 ms and move_resets to 15. -/
theorem c5_lock_delay_semantics (v : Versus) (idx : ℕ) (dt : ℚ)
    (moved rotated : Bool) :
    (on_ground v idx = true →
      0 < (if (rotated || moved) = true ∧ 0 < (v.getP idx).active.move_resets
           then LOCK_DELAY_MS else (v.getP idx).active.lock_timer) - dt →
      ((v.lock_delay_phase idx dt moved rotated).getP idx).active
        = { (v.getP idx).active with
            lock_timer :=
              (if (rotated || moved) = true ∧ 0 < (v.getP idx).active.move_resets
               then LOCK_DELAY_MS else (v.getP idx).active.lock_timer) - dt,
            move_resets :=
              if (rotated || moved) = true ∧ 0 < (v.getP idx).active.move_resets
              then (v.getP idx).active.move_resets - 1
              else (v.getP idx).active.move_resets })
    ∧ (on_ground v idx = true →
        (if (rotated || moved) = true ∧ 0 < (v.getP idx).active.move_resets
         then LOCK_DELAY_MS else (v.getP idx).active.lock_timer) - dt ≤ 0 →
        ((v.lock_delay_phase idx dt moved rotated).getStats idx).pieces
          = sat_add ((v.getStats idx).pieces) 1)
    ∧ (on_ground v idx = false →
        ((v.lock_delay_phase idx dt moved rotated).getP idx).active
          = { (v.getP idx).active with
              lock_timer := LOCK_DELAY_MS, move_resets := 15 }) := by
  refine ⟨fun hog heff => ?_, fun hog heff => ?_, fun hog => ?_⟩
  · unfold on_ground at hog
    by_cases hact : (rotated || moved) = true ∧ 0 < (v.getP idx).active.move_resets
    · rw [if_pos hact] at heff ⊢
      rw [if_pos hact]
      exact ldp_ground_reset v idx dt moved rotated hog hact.1 hact.2 heff
    · rw [if_neg hact] at heff ⊢
      rw [if_neg hact]
      exact ldp_ground_no_reset v idx dt moved rotated hog hact heff
  · exact ldp_ground_lock v idx dt moved rotated hog heff
  · exact ldp_airborne v idx dt moved rotated hog

/-- Fixture for C5: a T piece resting on the floor. -/
def c5_versus : Versus :=
  { ex_versus with player0 := { ex_player with
      active := { ActivePiece.new .T with y := 0 } } }

/-- Witness for C5 at the fixture: on ground, after a successful shift
with 15 move resets and dt = 100, the lock timer reads 400 ms and
move_resets reads 14. -/
theorem c5_lock_delay_semantics_witness :
    ((c5_versus.lock_delay_phase 0 100 true false).getP 0).active
      = { (c5_versus.getP 0).active with
          lock_timer :=
            (if (false || true) = true ∧ 0 < (c5_versus.getP 0).active.move_resets
             then LOCK_DELAY_MS else (c5_versus.getP 0).active.lock_timer) - 100,
          move_resets :=
            if (false || true) = true ∧ 0 < (c5_versus.getP 0).active.move_resets
            then (c5_versus.getP 0).active.move_resets - 1
            else (c5_versus.getP 0).active.move_resets } :=
  (c5_lock_delay_semantics c5_versus 0 100 true false).1 (by decide)
    (by norm_num [c5_versus, ex_versus, ex_player, ActivePiece.new,
      Versus.getP, LOCK_DELAY_MS])

/-- The attack Versus::on_piece_locked computes before garbage
cancellation, as a function of the pre-lock state: the combo counter is
first updated from cleared, then fed into the attack computation. -/
def attack_before_cancel_of (v : Versus) (idx cleared : ℕ) (ts : Bool) : ℕ :=
  attack_before_cancel_calc v.attack_table v.combo_table
    (if 0 < cleared then sat_add (v.getP idx).combo 1 else 0)
    (v.getP idx).back_to_back ((v.getP idx).board.visible_empty) cleared ts

theorem sat_add_eq {a b : ℕ} (h : a + b ≤ U32_MAX) : sat_add a b = a + b := by
  unfold sat_add
  omega

theorem opl_attack_stat (v : Versus) (idx : ℕ) (cleared : ℕ) (ts : Bool) :
    ((v.on_piece_locked idx cleared ts).getStats idx).attack
      = sat_add ((v.getStats idx).attack) (attack_before_cancel_of v idx cleared ts) := by
  unfold Versus.on_piece_locked attack_before_cancel_of
  simp only
  split_ifs <;> simp_all [getP_setP, getP_setP_opp]

theorem opl_pending (v : Versus) (idx : ℕ) (cleared : ℕ) (ts : Bool) :
    ((v.on_piece_locked idx cleared ts).getP idx).pending_garbage
      = if 0 < cleared
        then (v.getP idx).pending_garbage
          - min ((v.getP idx).pending_garbage) (attack_before_cancel_of v idx cleared ts)
        else 0 := by
  unfold Versus.on_piece_locked attack_before_cancel_of
  simp only
  split_ifs <;> simp_all [getP_setP, getP_setP_opp] <;> omega

theorem opl_spill_board (v : Versus) (idx : ℕ) (ts : Bool) :
    ((v.on_piece_locked idx 0 ts).getP idx).board
      = (if 0 < (v.getP idx).pending_garbage
            - min ((v.getP idx).pending_garbage) (attack_before_cancel_of v idx 0 ts)
         then ((v.getP idx).board.add_garbage
                ((v.getP idx).pending_garbage
                  - min ((v.getP idx).pending_garbage) (attack_before_cancel_of v idx 0 ts))
                ((v.getP idx).hole_stream (v.getP idx).hole_pos)).1
         else (v.getP idx).board) := by
  unfold Versus.on_piece_locked attack_before_cancel_of
  simp only
  split_ifs <;> simp_all [getP_setP, getP_setP_opp] <;>
    first
      | rfl
      | (congr 1 <;> omega)
      | omega

set_option maxHeartbeats 3200000 in
theorem opl_opp_pending (v : Versus) (idx : ℕ) (cleared : ℕ) (ts : Bool)
    (hidx : idx < 2) :
    ((v.on_piece_locked idx cleared ts).getP (if idx = 0 then 1 else 0)).pending_garbage
      = (if 0 < attack_before_cancel_of v idx cleared ts
              - min ((v.getP idx).pending_garbage) (attack_before_cancel_of v idx cleared ts)
         then sat_add ((v.getP (if idx = 0 then 1 else 0)).pending_garbage)
                (attack_before_cancel_of v idx cleared ts
                  - min ((v.getP idx).pending_garbage)
                      (attack_before_cancel_of v idx cleared ts))
         else (v.getP (if idx = 0 then 1 else 0)).pending_garbage) := by
  unfold Versus.on_piece_locked attack_before_cancel_of
  simp only
  interval_cases idx <;>
    (split_ifs <;> simp_all [getP_setP, getP_setP_opp] <;>
      first
        | rfl
        | (congr 1 <;> omega)
        | omega)

theorem opl_lines_sent (v : Versus) (idx : ℕ) (cleared : ℕ) (ts : Bool) :
    ((v.on_piece_locked idx cleared ts).getStats idx).lines_sent
      = (if 0 < attack_before_cancel_of v idx cleared ts
              - min ((v.getP idx).pending_garbage) (attack_before_cancel_of v idx cleared ts)
         then sat_add ((v.getStats idx).lines_sent)
                (attack_before_cancel_of v idx cleared ts
                  - min ((v.getP idx).pending_garbage)
                      (attack_before_cancel_of v idx cleared ts))
         else (v.getStats idx).lines_sent) := by
  unfold Versus.on_piece_locked attack_before_cancel_of
  simp only
  split_ifs <;> simp_all [getP_setP, getP_setP_opp] <;>
    first
      | rfl
      | (congr 1 <;> omega)
      | omega

/-- C3: for every lock resolution on_piece_locked(idx, cleared, t_spin),
writing A for the attack computed before cancellation
(attack_before_cancel_of) and S for the part of A surviving cancellation
(A - min(pending, A)): the attacker's stats.attack increases by the full
A; the locking player's own pending_garbage decreases by min(pending, A)
(and, when cleared = 0, the remainder is injected as garbage rows and
pending is zeroed); and exactly S is added to the opponent's
pending_garbage and to the attacker's stats.lines_sent.  The saturation
hypotheses state that the u32 counters do not hit their cap. -/
theorem c3_lock_resolution_garbage_accounting (v : Versus) (idx : ℕ)
    (cleared : ℕ) (ts : Bool) (hidx : idx < 2)
    (hA : (v.getStats idx).attack + attack_before_cancel_of v idx cleared ts ≤ U32_MAX)
    (hOpp : (v.getP (if idx = 0 then 1 else 0)).pending_garbage
        + (attack_before_cancel_of v idx cleared ts
          - min ((v.getP idx).pending_garbage) (attack_before_cancel_of v idx cleared ts))
        ≤ U32_MAX)
    (hSent : (v.getStats idx).lines_sent
        + (attack_before_cancel_of v idx cleared ts
          - min ((v.getP idx).pending_garbage) (attack_before_cancel_of v idx cleared ts))
        ≤ U32_MAX) :
    ((v.on_piece_locked idx cleared ts).getStats idx).attack
        = (v.getStats idx).attack + attack_before_cancel_of v idx cleared ts
    ∧ ((v.on_piece_locked idx cleared ts).getP idx).pending_garbage
        = (if 0 < cleared
           then (v.getP idx).pending_garbage
             - min ((v.getP idx).pending_garbage) (attack_before_cancel_of v idx cleared ts)
           else 0)
    ∧ (cleared = 0 →
        ((v.on_piece_locked idx cleared ts).getP idx).board
          = (if 0 < (v.getP idx).pending_garbage
                - min ((v.getP idx).pending_garbage) (attack_before_cancel_of v idx 0 ts)
             then ((v.getP idx).board.add_garbage
                    ((v.getP idx).pending_garbage
                      - min ((v.getP idx).pending_garbage) (attack_before_cancel_of v idx 0 ts))
                    ((v.getP idx).hole_stream (v.getP idx).hole_pos)).1
             else (v.getP idx).board))
    ∧ ((v.on_piece_locked idx cleared ts).getP (if idx = 0 then 1 else 0)).pending_garbage
        = (v.getP (if idx = 0 then 1 else 0)).pending_garbage
          + (attack_before_cancel_of v idx cleared ts
            - min ((v.getP idx).pending_garbage) (attack_before_cancel_of v idx cleared ts))
    ∧ ((v.on_piece_locked idx cleared ts).getStats idx).lines_sent
        = (v.getStats idx).lines_sent
          + (attack_before_cancel_of v idx cleared ts
            - min ((v.getP idx).pending_garbage) (attack_before_cancel_of v idx cleared ts)) := by
  refine ⟨?_, opl_pending v idx cleared ts, fun hc0 => ?_, ?_, ?_⟩
  · rw [opl_attack_stat]
    exact sat_add_eq hA
  · subst hc0
    exact opl_spill_board v idx ts
  · rw [opl_opp_pending v idx cleared ts hidx]
    by_cases h : 0 < attack_before_cancel_of v idx cleared ts
        - min ((v.getP idx).pending_garbage) (attack_before_cancel_of v idx cleared ts)
    · rw [if_pos h]
      exact sat_add_eq hOpp
    · rw [if_neg h]
      omega
  · rw [opl_lines_sent]
    by_cases h : 0 < attack_before_cancel_of v idx cleared ts
        - min ((v.getP idx).pending_garbage) (attack_before_cancel_of v idx cleared ts)
    · rw [if_pos h]
      exact sat_add_eq hSent
    · rw [if_neg h]
      omega

/-- Fixture for C3: the locking player has 3 pending garbage rows and
clears a tetris (attack 4): cancellation leaves 1 line for the opponent. -/
def c3_versus : Versus :=
  { ex_versus with player0 := { ex_player with pending_garbage := 3 } }

/-- Witness for C3 at the fixture (idx = 0, cleared = 4, no T-spin). -/
theorem c3_lock_resolution_witness :
    ((c3_versus.on_piece_locked 0 4 false).getStats 0).attack
        = (c3_versus.getStats 0).attack + attack_before_cancel_of c3_versus 0 4 false
    ∧ ((c3_versus.on_piece_locked 0 4 false).getP 0).pending_garbage
        = (if 0 < (4:ℕ)
           then (c3_versus.getP 0).pending_garbage
             - min ((c3_versus.getP 0).pending_garbage) (attack_before_cancel_of c3_versus 0 4 false)
           else 0)
    ∧ ((4:ℕ) = 0 →
        ((c3_versus.on_piece_locked 0 4 false).getP 0).board
          = (if 0 < (c3_versus.getP 0).pending_garbage
                - min ((c3_versus.getP 0).pending_garbage) (attack_before_cancel_of c3_versus 0 0 false)
             then ((c3_versus.getP 0).board.add_garbage
                    ((c3_versus.getP 0).pending_garbage
                      - min ((c3_versus.getP 0).pending_garbage) (attack_before_cancel_of c3_versus 0 0 false))
                    ((c3_versus.getP 0).hole_stream (c3_versus.getP 0).hole_pos)).1
             else (c3_versus.getP 0).board))
    ∧ ((c3_versus.on_piece_locked 0 4 false).getP (if (0:ℕ) = 0 then 1 else 0)).pending_garbage
        = (c3_versus.getP (if (0:ℕ) = 0 then 1 else 0)).pending_garbage
          + (attack_before_cancel_of c3_versus 0 4 false
            - min ((c3_versus.getP 0).pending_garbage) (attack_before_cancel_of c3_versus 0 4 false))
    ∧ ((c3_versus.on_piece_locked 0 4 false).getStats 0).lines_sent
        = (c3_versus.getStats 0).lines_sent
          + (attack_before_cancel_of c3_versus 0 4 false
            - min ((c3_versus.getP 0).pending_garbage) (attack_before_cancel_of c3_versus 0 4 false)) :=
  c3_lock_resolution_garbage_accounting c3_versus 0 4 false (by decide)
    (by decide) (by decide) (by decide)

example : attack_before_cancel_of c3_versus 0 4 false = 14 := by decide
example : ((c3_versus.on_piece_locked 0 4 false).getP 0).pending_garbage = 0 := by decide
example : ((c3_versus.on_piece_locked 0 4 false).getP 1).pending_garbage = 11 := by decide

theorem getD_set {α : Type} (l : List α) (i j : ℕ) (a d : α) :
    (l.set i a).getD j d = if i = j ∧ j < l.length then a else l.getD j d := by
  rw [List.getD_eq_getElem?_getD, List.getD_eq_getElem?_getD, List.getElem?_set]
  by_cases h : i = j
  · subst h
    by_cases hl : i < l.length
    · simp [hl]
    · rw [if_pos rfl, if_neg hl, if_neg (by intro hand; exact hl hand.2)]
      rw [List.getElem?_eq_none (by omega)]
  · simp [h]

theorem lock_piece_cells_spec (x y : ℤ) (color : ℕ) :
    ∀ (blocks : List Point) (cells : List (List ℕ)),
      cells.length = TOTAL_HEIGHT → (∀ row ∈ cells, row.length = WIDTH) →
      ∀ r c : ℕ, r < TOTAL_HEIGHT → c < WIDTH →
      (((Board.lock_piece ⟨cells⟩ x y blocks color).cells.getD r []).getD c 0)
        = if ∃ bl ∈ blocks, x + bl.x = (c : ℤ) ∧ y + bl.y = (r : ℤ)
          then color
          else ((cells.getD r []).getD c 0) := by
  intro blocks
  induction blocks with
  | nil =>
    intro cells hlen hrows r c hr hc
    simp [Board.lock_piece]
  | cons bl rest ih =>
    intro cells hlen hrows r c hr hc
    have ht40 : TOTAL_HEIGHT = 40 := rfl
    have hw10 : WIDTH = 10 := rfl
    have hstep : (Board.lock_piece ⟨cells⟩ x y (bl :: rest) color).cells
        = (Board.lock_piece
            ⟨if 0 ≤ x + bl.x && x + bl.x < (WIDTH : ℤ) && 0 ≤ y + bl.y
                && y + bl.y < (TOTAL_HEIGHT : ℤ) then
                cells.set (y + bl.y).toNat
                  ((cells.getD (y + bl.y).toNat []).set (x + bl.x).toNat color)
              else cells⟩
            x y rest color).cells := rfl
    rw [hstep]
    by_cases hib : (0 ≤ x + bl.x && x + bl.x < (WIDTH : ℤ) && 0 ≤ y + bl.y
        && y + bl.y < (TOTAL_HEIGHT : ℤ)) = true
    · -- the write lands in bounds
      simp only [hib, if_true]
      simp only [Bool.and_eq_true, decide_eq_true_eq] at hib
      obtain ⟨⟨⟨hx0, hxw⟩, hy0⟩, hyh⟩ := hib
      have hlen2 : (cells.set (y + bl.y).toNat
          ((cells.getD (y + bl.y).toNat []).set (x + bl.x).toNat color)).length
          = TOTAL_HEIGHT := by
        simp [hlen]
      have hrows2 : ∀ row ∈ cells.set (y + bl.y).toNat
          ((cells.getD (y + bl.y).toNat []).set (x + bl.x).toNat color),
          row.length = WIDTH := by
        intro row hrow
        rcases List.mem_or_eq_of_mem_set hrow with hmem | heq
        · exact hrows row hmem
        · subst heq
          rw [List.length_set]
          have hyn : (y + bl.y).toNat < cells.length := by omega
          exact hrows _ (List.getD_eq_getElem cells [] hyn ▸ List.getElem_mem hyn)
      rw [ih _ hlen2 hrows2 r c hr hc]
      by_cases hrest : ∃ b2 ∈ rest, x + b2.x = (c : ℤ) ∧ y + b2.y = (r : ℤ)
      · rw [if_pos hrest, if_pos ⟨hrest.choose, List.mem_cons_of_mem _ hrest.choose_spec.1,
          hrest.choose_spec.2⟩]
      · rw [if_neg hrest]
        rw [getD_set]
        by_cases hblhit : x + bl.x = (c : ℤ) ∧ y + bl.y = (r : ℤ)
        · rw [if_pos (show (y + bl.y).toNat = r ∧ r < cells.length from
            ⟨by omega, by omega⟩)]
          rw [getD_set]
          rw [if_pos ?side, if_pos ⟨bl, List.mem_cons_self bl rest, hblhit⟩]
          case side =>
            constructor
            · omega
            · have : (cells.getD (y + bl.y).toNat []).length = WIDTH := by
                have hrn : (y + bl.y).toNat < cells.length := by omega
                exact hrows _ (List.getD_eq_getElem cells [] hrn ▸ List.getElem_mem hrn)
              omega
        · have hnotex : ¬∃ b2 ∈ bl :: rest, x + b2.x = (c : ℤ) ∧ y + b2.y = (r : ℤ) := by
            intro hex
            rcases hex with ⟨b2, hmem, hhit⟩
            rcases List.mem_cons.mp hmem with rfl | hmem2
            · exact hblhit hhit
            · exact hrest ⟨b2, hmem2, hhit⟩
          rw [if_neg hnotex]
          by_cases hrowhit : (y + bl.y).toNat = r ∧ r < cells.length
          · rw [if_pos hrowhit]
            rw [getD_set]
            have hnotcol :
                ¬((x + bl.x).toNat = c ∧ c < (cells.getD (y + bl.y).toNat []).length) := by
              intro hcolhit
              exact hblhit ⟨by omega, by omega⟩
            rw [if_neg hnotcol]
            rw [hrowhit.1]
          · rw [if_neg hrowhit]
    · rw [if_neg hib]
      rw [ih _ hlen hrows r c hr hc]
      by_cases hrest : ∃ b2 ∈ rest, x + b2.x = (c : ℤ) ∧ y + b2.y = (r : ℤ)
      · rw [if_pos hrest, if_pos ⟨hrest.choose, List.mem_cons_of_mem _ hrest.choose_spec.1,
          hrest.choose_spec.2⟩]
      · rw [if_neg hrest]
        have hnotex2 : ¬∃ b2 ∈ bl :: rest, x + b2.x = (c : ℤ) ∧ y + b2.y = (r : ℤ) := by
          intro hex
          rcases hex with ⟨b2, hmem, hhit⟩
          rcases List.mem_cons.mp hmem with rfl | hmem2
          · refine hib ?_
            simp only [Bool.and_eq_true, decide_eq_true_eq]
            exact ⟨⟨⟨by omega, by omega⟩, by omega⟩, by omega⟩
          · exact hrest ⟨b2, hmem2, hhit⟩
        rw [if_neg hnotex2]

/-- C8: `Board.lock_piece` is a pure frame effect on the cell matrix
(before line clearing runs): on a well-formed board, every in-bounds cell
(row `r`, column `c`) afterwards holds the piece's color id exactly when
`(c, r)` is one of the translated block targets, and otherwise keeps its
previous value — no other cell changes. -/
theorem c8_lock_piece_frame (b : Board) (x y : ℤ) (blocks : List Point)
    (color : ℕ) (hw : board_wf b.cells)
    (r c : ℕ) (hr : r < TOTAL_HEIGHT) (hc : c < WIDTH) :
    (((b.lock_piece x y blocks color).cells.getD r []).getD c 0)
      = if ∃ bl ∈ blocks, x + bl.x = (c : ℤ) ∧ y + bl.y = (r : ℤ)
        then color
        else ((b.cells.getD r []).getD c 0) :=
  lock_piece_cells_spec x y color blocks b.cells hw.1 hw.2 r c hr hc

/-- C8 witness: locking a T piece at (x, y) = (4, 0) on the empty board
writes color 7 into cell (row 0, col 4) exactly as the frame statement
predicts. -/
theorem c8_lock_piece_frame_witness :
    board_wf Board.new.cells ∧ (0 : ℕ) < TOTAL_HEIGHT ∧ (4 : ℕ) < WIDTH ∧
    (((Board.new.lock_piece 4 0 (shape_blocks .T .Spawn) 7).cells.getD 0 []).getD 4 0)
      = if ∃ bl ∈ shape_blocks .T .Spawn,
            (4 : ℤ) + bl.x = ((4 : ℕ) : ℤ) ∧ (0 : ℤ) + bl.y = ((0 : ℕ) : ℤ)
        then 7 else ((Board.new.cells.getD 0 []).getD 4 0) :=
  ⟨⟨by decide, by decide⟩, by decide, by decide,
    c8_lock_piece_frame Board.new 4 0 (shape_blocks .T .Spawn) 7 ⟨by decide, by decide⟩ 0 4
      (by decide) (by decide)⟩

/-! Drop-height fallback of the bot protocol (C1). -/

/-- Scan exhaustion: the descending scan returns none exactly when no
height below n admits the block set. -/
theorem lowest_drop_aux_none (b : Board) (x : ℤ) (blocks : List Point) :
    ∀ n : ℕ, lowest_drop_aux b x blocks n = none ↔
      ∀ y' : ℤ, 0 ≤ y' → y' < (n : ℤ) → drop_ok b x blocks y' = false := by
  intro n
  induction n with
  | zero =>
    simp only [lowest_drop_aux]
    constructor
    · intro _ y' h1 h2
      omega
    · intro _
      trivial
  | succ n ih =>
    rw [lowest_drop_aux]
    by_cases hd : drop_ok b x blocks (n : ℤ) = true
    · rw [if_pos hd]
      constructor
      · intro h
        cases h
      · intro hall
        have hcontra := hall (n : ℤ) (Int.natCast_nonneg n) (by push_cast; omega)
        rw [hd] at hcontra
        cases hcontra
    · rw [if_neg hd, ih]
      constructor
      · intro hall y' h1 h2
        by_cases hy : y' = (n : ℤ)
        · subst hy
          simpa using hd
        · exact hall y' h1 (by push_cast at h2 ⊢; omega)
      · intro hall y' h1 h2
        exact hall y' h1 (by push_cast at h2 ⊢; omega)

/-- Scan success: a hit is legal and is the greatest legal height below n
(the scan runs downward from the top and stops at the first success). -/
theorem lowest_drop_aux_some (b : Board) (x : ℤ) (blocks : List Point) :
    ∀ (n : ℕ) (y : ℤ), lowest_drop_aux b x blocks n = some y →
      drop_ok b x blocks y = true ∧ 0 ≤ y ∧ y < (n : ℤ)
      ∧ ∀ y' : ℤ, y < y' → y' < (n : ℤ) → drop_ok b x blocks y' = false := by
  intro n
  induction n with
  | zero =>
    intro y h
    simp [lowest_drop_aux] at h
  | succ n ih =>
    intro y h
    rw [lowest_drop_aux] at h
    by_cases hd : drop_ok b x blocks (n : ℤ) = true
    · rw [if_pos hd] at h
      injection h with h
      subst h
      refine ⟨hd, Int.natCast_nonneg n, by push_cast; omega, ?_⟩
      intro y' h1 h2
      push_cast at h2
      omega
    · rw [if_neg hd] at h
      obtain ⟨h1, h2, h3, h4⟩ := ih y h
      refine ⟨h1, h2, by push_cast at h3 ⊢; omega, ?_⟩
      intro y' hy1 hy2
      by_cases hy : y' = (n : ℤ)
      · subst hy
        simpa using hd
      · exact h4 y' hy1 (by push_cast at hy2 ⊢; omega)

/-- A legal scan height means the repositioned piece does not collide. -/
theorem collision_eq_false_of_drop_ok (b : Board) (ap : ActivePiece) (y : ℤ)
    (h : drop_ok b ap.x ap.blocks y = true) :
    b.collision { ap with y := y } = false := by
  simp only [drop_ok, Bool.and_eq_true, Bool.not_eq_true'] at h
  exact h.2

/-- The fixture active piece for the C1 scenario: a T requested at
x = 4, y = -1, which collides (below the floor) on the empty board. -/
def c1_ap : ActivePiece :=
  { ActivePiece.new .T with x := 4, y := -1 }

/-- C1 counterexample: on the empty board, a T piece requested at a
colliding y is dropped by the fallback to y = 38 — the top of the buffer,
the greatest legal height — even though y = 0 is also legal, so the
height chosen is not the minimal legal y the claim describes. -/
theorem c1_drop_height_not_minimal_counterexample :
    Board.new.collision c1_ap = true
    ∧ (resolve_collision Board.new c1_ap).2.y = 38
    ∧ drop_ok Board.new c1_ap.x c1_ap.blocks 0 = true := by
  decide

/-- C1 (amended): in the collision fallback of apply_tbp_move, when the
requested placement collides, lowest_drop_height scans y downward from
the top; it fails (and apply_tbp_move reports the placement-collision
error) exactly when no in-bounds collision-free height exists, and
otherwise the piece is placed at the GREATEST such height — not the
minimal one. -/
theorem c1_collision_fallback_spec (b : Board) (ap : ActivePiece)
    (hc : b.collision ap = true) :
    ((resolve_collision b ap).1 = false ↔ b.lowest_drop_height ap.x ap.blocks = none)
    ∧ (b.lowest_drop_height ap.x ap.blocks = none ↔
        ∀ y' : ℤ, 0 ≤ y' → y' < (TOTAL_HEIGHT : ℤ) → drop_ok b ap.x ap.blocks y' = false)
    ∧ ∀ y : ℤ, b.lowest_drop_height ap.x ap.blocks = some y →
        resolve_collision b ap = (true, { ap with y := y })
        ∧ drop_ok b ap.x ap.blocks y = true
        ∧ ∀ y' : ℤ, y < y' → y' < (TOTAL_HEIGHT : ℤ) → drop_ok b ap.x ap.blocks y' = false := by
  refine ⟨?_, lowest_drop_aux_none b ap.x ap.blocks TOTAL_HEIGHT, ?_⟩
  · rw [resolve_collision, if_pos hc]
    cases hres : b.lowest_drop_height ap.x ap.blocks with
    | none => simp
    | some y =>
      obtain ⟨hok, -, -, -⟩ :=
        lowest_drop_aux_some b ap.x ap.blocks TOTAL_HEIGHT y hres
      have hcf := collision_eq_false_of_drop_ok b ap y hok
      simp [hcf]
  · intro y hres
    obtain ⟨hok, -, -, hmax⟩ :=
      lowest_drop_aux_some b ap.x ap.blocks TOTAL_HEIGHT y hres
    have hcf := collision_eq_false_of_drop_ok b ap y hok
    rw [resolve_collision, if_pos hc, hres]
    simp only [hcf, Bool.false_eq_true, if_false]
    exact ⟨trivial, hok, hmax⟩

/-- C1 witness: the fallback scenario run concretely — the colliding T at
x = 4 is placed at y = 38 and the fallback reports success. -/
theorem c1_collision_fallback_spec_witness :
    Board.new.collision c1_ap = true
    ∧ Board.new.lowest_drop_height c1_ap.x c1_ap.blocks = some 38
    ∧ resolve_collision Board.new c1_ap = (true, { c1_ap with y := 38 })
    ∧ drop_ok Board.new c1_ap.x c1_ap.blocks 38 = true :=
  ⟨by decide, by decide,
    ((c1_collision_fallback_spec Board.new c1_ap (by decide)).2.2 38 (by decide)).1,
    ((c1_collision_fallback_spec Board.new c1_ap (by decide)).2.2 38 (by decide)).2.1⟩

/-! Error atomicity of the bot protocol (C10). -/

/-- The C10 fixture: player 0 already holds an I piece, so a bot move
requesting the held I triggers the hold/queue swap block. -/
def c10_versus : Versus :=
  ex_versus.setP 0 { ex_player with hold := some .I }

/-- C10 counterexample: requesting the held I with an unknown orientation
fails with the unknown-orientation error AFTER the hold swap has been
committed — the returned state has hold = T (was I), the I as the new
active piece, and held_on_turn set; and a placement-collision failure at
an impossible x likewise keeps the committed swap and the overwritten
active piece. -/
theorem c10_unknown_orientation_mutates_counterexample :
    (c10_versus.apply_tbp_move 0 ⟨some .I, none, 0, 0⟩).1 = .error .unknownOrientation
    ∧ (c10_versus.getP 0).hold = some .I
    ∧ (c10_versus.getP 0).active.piece = .T
    ∧ (((c10_versus.apply_tbp_move 0 ⟨some .I, none, 0, 0⟩).2).getP 0).hold = some .T
    ∧ (((c10_versus.apply_tbp_move 0 ⟨some .I, none, 0, 0⟩).2).getP 0).active.piece = .I
    ∧ (((c10_versus.apply_tbp_move 0 ⟨some .I, none, 0, 0⟩).2).getP 0).held_on_turn = true
    ∧ (c10_versus.apply_tbp_move 0 ⟨some .I, some .North, -10, 0⟩).1
        = .error .placementCollision
    ∧ (((c10_versus.apply_tbp_move 0 ⟨some .I, some .North, -10, 0⟩).2).getP 0).hold
        = some .T
    ∧ (((c10_versus.apply_tbp_move 0 ⟨some .I, some .North, -10, 0⟩).2).getP 0).active.x
        = -10 := by
  decide

/-- C10 (amended): apply_tbp_move is atomic only for the failures
detected before the hold/queue swap commits — invalid player index,
topped out, unknown piece, and move-not-available all return the state
unchanged.  The unknown-orientation failure is detected after the swap
has been written back, so it can return a mutated state (hold slot
swapped or filled, queue popped and refilled, active piece replaced), as
can the placement-collision failure, which additionally leaves the
overwritten active piece coordinates in place. -/
theorem c10_early_errors_leave_state (v : Versus) (idx : ℕ) (mv : TbpMove)
    (e : TbpError)
    (he : e = .invalidIndex ∨ e = .toppedOut ∨ e = .unknownPiece
      ∨ e = .moveNotAvailable) :
    (v.apply_tbp_move idx mv).1 = .error e → (v.apply_tbp_move idx mv).2 = v := by
  simp only [Versus.apply_tbp_move]
  split
  · intro _
    rfl
  · split
    · intro _
      rfl
    · split
      · intro _
        rfl
      · split
        · intro _
          rfl
        · split
          · intro hh
            rcases he with rfl | rfl | rfl | rfl <;> simp at hh
          · split <;> split
            · intro hh
              simp at hh
            · intro hh
              rcases he with rfl | rfl | rfl | rfl <;> simp at hh
            · intro hh
              simp at hh
            · intro hh
              rcases he with rfl | rfl | rfl | rfl <;> simp at hh

/-- C10 witness: an out-of-range player index fails with the
invalid-index error and leaves the state untouched. -/
theorem c10_early_errors_leave_state_witness :
    (ex_versus.apply_tbp_move 5 ⟨some .T, some .North, 4, 0⟩).1 = .error .invalidIndex
    ∧ (ex_versus.apply_tbp_move 5 ⟨some .T, some .North, 4, 0⟩).2 = ex_versus :=
  ⟨by decide,
    c10_early_errors_leave_state ex_versus 5 ⟨some .T, some .North, 4, 0⟩
      .invalidIndex (Or.inl rfl) (by decide)⟩
